import Mathlib

/-!
Verification of the pagination, filtering and cursor-addressing engine that
recurs across the repository's REST (`rest-api/server.js`), GraphQL
(`graphql-api/server.js`, the GraphQL implementation file) and gRPC
(`grpc-api/server.js`, the gRPC implementation file) servers.

Modelling conventions, used throughout:
* JavaScript strings are modelled as `List Char` (JS strings are sequences of
  code units; all data in this repository is ASCII, where code units and code
  points agree).  Lean's builtin `String` functions are avoided because they
  do not reduce well in the kernel.
* JS numbers in this code base are always integers (ids, ages, salaries,
  epoch timestamps), so they are modelled as `Nat`/`Int`.
* `Array.prototype.sort` (guaranteed stable since ES2019) with a consistent
  comparator `cmp` is modelled as `List.insertionSort r` where
  `r a b ↔ cmp a b ≤ 0`; insertion sort is a stable sort, and a stable sort
  of a list is uniquely determined by `r`, so this is the exact output of
  the JS engine's sort.
* User ids: the gRPC/GraphQL mock databases use the strings
  `String(1) .. String(150)`, the REST one uses the numbers `1 .. 150`.
  Ids are only ever used under strict equality (`===`) and as cursor payload
  values, and decimal rendering is injective, so ids are modelled by their
  numeric value.  Cursor payloads carry them as JSON numbers.
* `Buffer.from(s, 'base64')` (Node) ignores characters outside the base64
  alphabet (including `=` padding) and decodes the remaining sextet stream.
* `Buffer.prototype.toString('utf8')` is modelled for single-byte (ASCII)
  sequences exactly; a byte ≥ 0x80 is replaced by U+FFFD.  Every string the
  engine itself base64-encodes is pure ASCII, so the model agrees with Node
  on every engine-produced token.  (A multi-byte UTF-8 sequence in a hostile
  token would decode to other characters; such a token can only influence
  results after `JSON.parse` succeeds, which no claim depends on.)
* `JSON.stringify`/`JSON.parse` are modelled for the values that occur as
  cursor payloads: flat objects whose values are integers or strings
  (`{id}`, `{sort_value, id}`).  The parser accepts exactly the flat-object
  grammar (with `\"` and `\\` escapes) and rejects everything else; JS
  additionally accepts other top-level JSON values, which the cursor code
  then treats as an object with no `id` property.  No claim depends on a
  hostile token of that shape.
-/

/-- JavaScript string, as its list of code units. -/
abbrev JSStr := List Char

/-- Strict `<` between JS strings: lexicographic on code units. -/
def lexLt : JSStr → JSStr → Bool
  | [], [] => false
  | [], _ :: _ => true
  | _ :: _, [] => false
  | a :: s, b :: t =>
    if a.toNat < b.toNat then true
    else if b.toNat < a.toNat then false
    else lexLt s t

/-- JS `String.prototype.toLowerCase` (ASCII data). -/
def jsToLower (s : JSStr) : JSStr := s.map Char.toLower

/-- JS `String.prototype.startsWith`. -/
def startsWithL : JSStr → JSStr → Bool
  | _, [] => true
  | [], _ :: _ => false
  | a :: s, b :: t => a = b && startsWithL s t

/-- JS `String.prototype.includes`: `t` occurs as a contiguous substring of `s`. -/
def includesL (s t : JSStr) : Bool :=
  startsWithL s t || match s with
    | [] => false
    | _ :: s' => includesL s' t

/-- One decimal digit character. -/
def digitChar (n : Nat) : Char := Char.ofNat (48 + n)

/-- Fuel-driven decimal rendering (structural recursion so the kernel can
evaluate it). -/
def natCharsAux : Nat → Nat → List Char
  | 0, _ => []
  | fuel + 1, n =>
    if n < 10 then [digitChar n]
    else natCharsAux fuel (n / 10) ++ [digitChar (n % 10)]

/-- Decimal rendering of a natural number, as JS `String(n)` produces it. -/
def natChars (n : Nat) : List Char := natCharsAux (n + 1) n

/-- Decimal rendering of a JS (integer) number, as `JSON.stringify` emits it. -/
def intChars (n : Int) : List Char :=
  if n < 0 then '-' :: natChars n.natAbs else natChars n.natAbs

/-- Decimal digit test. -/
def isDigitC (c : Char) : Bool := 48 ≤ c.toNat && c.toNat ≤ 57

/-- Numeric value of a decimal digit character. -/
def digitVal (c : Char) : Nat := c.toNat - 48

/-- Value of a big-endian list of decimal digits. -/
def digitsVal (ds : List Nat) : Nat := ds.foldl (fun a d => a * 10 + d) 0

/-- JS `x || d` for an optional number `x` (`0` is falsy). -/
def jsOrInt : Option Int → Int → Int
  | some n, d => if n = 0 then d else n
  | none, d => d

/-! ## Base64 codec (Node `Buffer` semantics)

`encodeCursor` uses `Buffer.from(json, 'utf8').toString('base64')`;
`decodeCursor` uses `Buffer.from(token, 'base64').toString('utf8')`.
Bytes are `Nat`s below 256. -/

/-- The base64 alphabet. -/
def b64Alphabet : List Char :=
  "ABCDEFGHIJKLMNOPQRSTUVWXYZabcdefghijklmnopqrstuvwxyz0123456789+/".data

/-- Character for a sextet value. -/
def sextetChar (n : Nat) : Char := b64Alphabet.getD n 'A'

/-- Sextet value of a character, `none` when the character is outside the
alphabet (Node ignores such characters when decoding). -/
def charSextet? (c : Char) : Option Nat := b64Alphabet.findIdx? (· = c)

/-- Base64 encoding of a byte list, with `=` padding, 3 bytes at a time. -/
def encodeB64 : List Nat → List Char
  | [] => []
  | [b1] => [sextetChar (b1 / 4), sextetChar (b1 % 4 * 16), '=', '=']
  | [b1, b2] =>
    [sextetChar (b1 / 4), sextetChar (b1 % 4 * 16 + b2 / 16),
     sextetChar (b2 % 16 * 4), '=']
  | b1 :: b2 :: b3 :: rest =>
    sextetChar (b1 / 4) :: sextetChar (b1 % 4 * 16 + b2 / 16) ::
    sextetChar (b2 % 16 * 4 + b3 / 64) :: sextetChar (b3 % 64) ::
    encodeB64 rest

/-- Reassembling bytes from a sextet stream, 4 sextets at a time; a trailing
group of 3/2/1 sextets yields 2/1/0 bytes (Node semantics). -/
def sextetsBytes : List Nat → List Nat
  | s1 :: s2 :: s3 :: s4 :: rest =>
    (s1 * 4 + s2 / 16) :: (s2 % 16 * 16 + s3 / 4) :: (s3 % 4 * 64 + s4) ::
    sextetsBytes rest
  | [s1, s2, s3] => [s1 * 4 + s2 / 16, s2 % 16 * 16 + s3 / 4]
  | [s1, s2] => [s1 * 4 + s2 / 16]
  | _ => []

/-- Base64 decoding, Node style: characters outside the alphabet (including
`=` padding) are ignored, then the sextet stream is reassembled. -/
def decodeB64 (cs : List Char) : List Nat := sextetsBytes (cs.filterMap charSextet?)

/-- The sextet stream produced when encoding a byte list (what
`(encodeB64 bs).filterMap charSextet?` recovers). -/
def byteSextets : List Nat → List Nat
  | [] => []
  | [b1] => [b1 / 4, b1 % 4 * 16]
  | [b1, b2] => [b1 / 4, b1 % 4 * 16 + b2 / 16, b2 % 16 * 4]
  | b1 :: b2 :: b3 :: rest =>
    b1 / 4 :: (b1 % 4 * 16 + b2 / 16) :: (b2 % 16 * 4 + b3 / 64) :: b3 % 64 ::
    byteSextets rest

/-- All elements below a bound (byte lists, sextet lists). -/
def allBelow (k : Nat) (bs : List Nat) : Prop := ∀ b ∈ bs, b < k

/-! ## JSON codec

Cursor payloads are flat JSON objects whose values are integers or strings:
`{id: ...}` and `{sort_value: ..., id: ...}` are the shapes the engine
produces.  `JSON.stringify` / `JSON.parse` are modelled for exactly this
fragment (see the header comment). -/

/-- A primitive JSON value as it occurs in a cursor payload. -/
inductive JPrim where
  | num (n : Int)
  | str (s : JSStr)
deriving DecidableEq

/-- A flat JSON object: an ordered list of key/value fields. -/
abbrev JObj := List (JSStr × JPrim)

/-- JSON string-body escaping, as `JSON.stringify` performs it on the data in
this repository (only `"` and `\` ever need escaping; control characters do
not occur in engine data). -/
def escapeStr : JSStr → JSStr
  | [] => []
  | c :: s =>
    if c = '"' ∨ c = '\\' then '\\' :: c :: escapeStr s else c :: escapeStr s

/-- `JSON.stringify` of a primitive value. -/
def stringifyPrim : JPrim → JSStr
  | .num n => intChars n
  | .str s => '"' :: (escapeStr s ++ ['"'])

/-- `JSON.stringify` of one `key: value` field. -/
def stringifyField (f : JSStr × JPrim) : JSStr :=
  '"' :: (escapeStr f.1 ++ '"' :: ':' :: stringifyPrim f.2)

/-- Comma-separated concatenation. -/
def joinComma : List JSStr → JSStr
  | [] => []
  | [x] => x
  | x :: xs => x ++ ',' :: joinComma xs

/-- `JSON.stringify` of a flat object. -/
def stringifyObj (o : JObj) : JSStr :=
  '{' :: (joinComma (o.map stringifyField) ++ ['}'])

/-- Parse a JSON string body (after the opening quote), returning the string
and the input remaining after the closing quote. -/
def parseStr : JSStr → Option (JSStr × JSStr)
  | [] => none
  | c :: rest =>
    if c = '"' then some ([], rest)
    else if c = '\\' then
      match rest with
      | [] => none
      | c2 :: rest2 =>
        if c2 = '"' ∨ c2 = '\\' then (parseStr rest2).map (fun p => (c2 :: p.1, p.2))
        else none
    else if c.toNat < 32 then none
    else (parseStr rest).map (fun p => (c :: p.1, p.2))

/-- Parse a JSON natural-number literal (no leading zeros). -/
def parseNumNat (l : JSStr) : Option (Nat × JSStr) :=
  let ds := l.takeWhile isDigitC
  if ds = [] then none
  else if ds.head? = some '0' ∧ 1 < ds.length then none
  else some (digitsVal (ds.map digitVal), l.dropWhile isDigitC)

/-- Parse a primitive JSON value (integer or string). -/
def parsePrim (l : JSStr) : Option (JPrim × JSStr) :=
  match l with
  | [] => none
  | c :: rest =>
    if c = '"' then (parseStr rest).map (fun p => (JPrim.str p.1, p.2))
    else if c = '-' then (parseNumNat rest).map (fun p => (JPrim.num (-(p.1 : Int)), p.2))
    else (parseNumNat l).map (fun p => (JPrim.num (p.1 : Int), p.2))

/-- Parse one `"key": value` field. -/
def parseField (l : JSStr) : Option ((JSStr × JPrim) × JSStr) :=
  match l with
  | [] => none
  | c :: rest =>
    if c = '"' then
      match parseStr rest with
      | some (k, rest2) =>
        match rest2 with
        | [] => none
        | c2 :: rest3 =>
          if c2 = ':' then (parsePrim rest3).map (fun p => ((k, p.1), p.2))
          else none
      | none => none
    else none

/-- Parse a comma-separated nonempty field list (fuel-driven so the kernel
can evaluate it; the fuel is an upper bound on the number of fields). -/
def parseFieldsAux : Nat → JSStr → Option (JObj × JSStr)
  | 0, _ => none
  | fuel + 1, l =>
    match parseField l with
    | some (f, rest) =>
      match rest with
      | c :: rest2 =>
        if c = ',' then (parseFieldsAux fuel rest2).map (fun p => (f :: p.1, p.2))
        else some ([f], c :: rest2)
      | [] => some ([f], [])
    | none => none

/-- `JSON.parse`, on the flat-object fragment: the whole input must be a
single object literal. -/
def parseJson (l : JSStr) : Option JObj :=
  match l with
  | [] => none
  | c :: rest =>
    if c = '{' then
      if rest = ['}'] then some []
      else
        match parseFieldsAux (rest.length + 1) rest with
        | some (o, rest2) => if rest2 = ['}'] then some o else none
        | none => none
    else none

/-! ## Bytes (Node `Buffer` utf8 conversions) -/

/-- UTF-8 encoding of one character. -/
def utf8Bytes (c : Char) : List Nat :=
  let n := c.toNat
  if n < 128 then [n]
  else if n < 2048 then [192 + n / 64, 128 + n % 64]
  else if n < 65536 then [224 + n / 4096, 128 + n / 64 % 64, 128 + n % 64]
  else [240 + n / 262144, 128 + n / 4096 % 64, 128 + n / 64 % 64, 128 + n % 64]

/-- `Buffer.from(s, 'utf8')`: the UTF-8 bytes of a string. -/
def strBytes (s : JSStr) : List Nat := (s.map utf8Bytes).flatten

/-- `buf.toString('utf8')`, restricted to single-byte sequences: an ASCII
byte decodes to itself, any byte ≥ 0x80 to U+FFFD (every engine-produced
token is pure ASCII, where this is exact; see the header comment). -/
def bytesChars (bs : List Nat) : List Char :=
  bs.map (fun b => if b < 128 then Char.ofNat b else Char.ofNat 65533)

/-- All characters ASCII. -/
def asciiStr (s : JSStr) : Bool := s.all (fun c => c.toNat < 128)

/-! ## Cursor codec (`encodeCursor` / `decodeCursor`)

Source (identical in all three servers):
```
function encodeCursor(data) \x7b
  return Buffer.from(JSON.stringify(data)).toString('base64');
\x7d
function decodeCursor(cursor) \x7b
  try \x7b
    return JSON.parse(Buffer.from(cursor, 'base64').toString('utf8'));
  \x7d catch \x7b
    return null;
  \x7d
\x7d
```
-/

/-- The typed decode failure (`JSON.parse` threw inside `decodeCursor`). -/
inductive DecodeErr where
  | malformed
deriving DecidableEq

/-- `encodeCursor`: base64 of the UTF-8 bytes of the JSON rendering. -/
def encodeCursor (data : JObj) : JSStr :=
  encodeB64 (strBytes (stringifyObj data))

/-- The body of `decodeCursor` before the `try/catch`: `Buffer.from(_, 'base64')`
and `toString('utf8')` never throw in Node; `JSON.parse` throws exactly when
the text is not valid JSON, modelled as the `Except` error. -/
def decodeCursorRaw (cursor : JSStr) : Except DecodeErr JObj :=
  match parseJson (bytesChars (decodeB64 cursor)) with
  | some o => Except.ok o
  | none => Except.error DecodeErr.malformed

/-- `decodeCursor`: the `try/catch` maps the thrown error to `null`. -/
def decodeCursor (cursor : JSStr) : Option JObj :=
  match decodeCursorRaw cursor with
  | Except.ok o => some o
  | Except.error _ => none

/-- Characters that can appear in an engine-produced cursor payload string:
printable ASCII. -/
def goodCharB (c : Char) : Bool := 32 ≤ c.toNat && c.toNat < 128

/-- Well-formed payload string: printable ASCII. -/
def wfStr (s : JSStr) : Bool := s.all goodCharB

/-- Well-formed payload value. -/
def wfPrim : JPrim → Bool
  | JPrim.num _ => true
  | JPrim.str s => wfStr s

/-- Well-formed payload object: the key tuples the engine can encode. -/
def wfObj (o : JObj) : Bool := o.all (fun f => wfStr f.1 && wfPrim f.2)


/-! ## Shared sort-value type

A JS comparison key is either a number or a string; each sortable field
yields one fixed kind, and JS `<`/`>` on two values of the same kind is
numeric or lexicographic order.  (Cross-kind comparisons never occur in the
engine: both sides of a comparator read the same field.) -/

/-- A sort-key value: a JS number or string. -/
inductive SVal where
  | n (v : Nat)
  | s (v : JSStr)
deriving DecidableEq

/-- JS `<` on two sort-key values of the same kind. -/
def ltSVal : SVal → SVal → Bool
  | SVal.n a, SVal.n b => a < b
  | SVal.s a, SVal.s b => lexLt a b
  | _, _ => false

/-- First `id`-field lookup in a decoded cursor payload (JS `decoded.id`). -/
def jGet (o : JObj) (k : JSStr) : Option JPrim :=
  (o.find? (fun f => f.1 = k)).map (fun f => f.2)

/-- The `id` key. -/
def idKey : JSStr := "id".data

/-- `if (cond) r = r.filter(p)` -/
def condFilter {α : Type} (cond : Bool) (p : α → Bool) (r : List α) : List α :=
  if cond then r.filter p else r

/-- `if (x !== undefined) r = r.filter(p x)` for a wrapper-typed field. -/
def optFilter {α β : Type} (x : Option β) (p : β → α → Bool) (r : List α) : List α :=
  match x with
  | some v => r.filter (p v)
  | none => r

namespace Grpc

/-! ### gRPC server model (the gRPC implementation file, `grpc-api/server.js`)

Records: ids are the strings `String(1)..String(150)`, modelled by their
numeric value (see the header comment); `created_at` is a protobuf
Timestamp, of which only `.seconds` is ever read. -/

/-- A user record of the gRPC mock database. -/
structure GUser where
  id : Nat
  first_name : JSStr
  last_name : JSStr
  email : JSStr
  age : Nat
  status : Nat
  role : Nat
  created_at_seconds : Nat
  department : JSStr
  salary : Nat
deriving DecidableEq

/-- `['John','Jane','Bob','Alice','Charlie']` -/
def firstNames : List JSStr :=
  ["John".data, "Jane".data, "Bob".data, "Alice".data, "Charlie".data]

/-- `['Doe','Smith','Johnson','Williams','Brown']` -/
def lastNames : List JSStr :=
  ["Doe".data, "Smith".data, "Johnson".data, "Williams".data, "Brown".data]

/-- `['Engineering','Sales','Marketing','Support']` -/
def departmentNames : List JSStr :=
  ["Engineering".data, "Sales".data, "Marketing".data, "Support".data]

/-- The user at index `i` of the mock database (`now` is `Date.now()` at
startup, in milliseconds). -/
def mkUser (now : Nat) (i : Nat) : GUser :=
  ⟨i + 1,
   firstNames.getD (i % 5) [],
   lastNames.getD (i % 5) [],
   "user".data ++ natChars (i + 1) ++ "@example.com".data,
   20 + i % 40,
   [1, 2, 3].getD (i % 3) 0,
   [1, 2, 3].getD (i % 3) 0,
   (now - i * 86400000) / 1000,
   departmentNames.getD (i % 4) [],
   50000 + i * 1000⟩

/-- The 150-record mock database. -/
def users (now : Nat) : List GUser := (List.range 150).map (mkUser now)

/-- The `UserFilter` request message (proto3 defaults: numeric fields `0`,
strings empty, repeated fields empty, wrapper fields absent). -/
structure GFilter where
  status : Nat
  statuses : List Nat
  role : Nat
  department : JSStr
  departments : List JSStr
  age_min : Option Nat
  age_max : Option Nat
  age_eq : Option Nat
  salary_min : Option Nat
  salary_max : Option Nat
  search : JSStr
  email_contains : JSStr
  ids : List Nat
deriving DecidableEq

/-- `applyFilters(userList, filter)`: each present condition filters the
list in turn. -/
def applyFilters (userList : List GUser) (filter : Option GFilter) : List GUser :=
  match filter with
  | none => userList
  | some f =>
    let r := userList
    let r := condFilter (f.status != 0) (fun u => u.status = f.status) r
    let r := condFilter (0 < f.statuses.length) (fun u => f.statuses.contains u.status) r
    let r := condFilter (f.role != 0) (fun u => u.role = f.role) r
    let r := condFilter (f.department != []) (fun u => u.department = f.department) r
    let r := condFilter (0 < f.departments.length)
      (fun u => f.departments.contains u.department) r
    let r := optFilter f.age_min (fun v u => v ≤ u.age) r
    let r := optFilter f.age_max (fun v u => u.age ≤ v) r
    let r := optFilter f.age_eq (fun v u => u.age = v) r
    let r := optFilter f.salary_min (fun v u => v ≤ u.salary) r
    let r := optFilter f.salary_max (fun v u => u.salary ≤ v) r
    let r := condFilter (f.search != [])
      (fun u =>
        includesL (jsToLower u.first_name) (jsToLower f.search) ||
        includesL (jsToLower u.last_name) (jsToLower f.search) ||
        includesL (jsToLower u.email) (jsToLower f.search)) r
    let r := condFilter (f.email_contains != [])
      (fun u => includesL (jsToLower u.email) (jsToLower f.email_contains)) r
    let r := condFilter (0 < f.ids.length) (fun u => f.ids.contains u.id) r
    r

/-- The `UserSort` request message: `field` is the `UserSortField` enum
value (1=CREATED_AT, 2=FIRST_NAME, 3=LAST_NAME, 4=EMAIL, 5=AGE, 6=SALARY),
`order` the `SortOrder` enum value (2=DESC). -/
structure GSort where
  field : Nat
  order : Nat
deriving DecidableEq

/-- The comparison value `aVal` read by the comparator for a sort field
(timestamps via `.seconds`, strings lowercased). -/
def sortVal : Nat → GUser → SVal
  | 1, u => SVal.n u.created_at_seconds
  | 2, u => SVal.s (jsToLower u.first_name)
  | 3, u => SVal.s (jsToLower u.last_name)
  | 4, u => SVal.s (jsToLower u.email)
  | 5, u => SVal.n u.age
  | 6, u => SVal.n u.salary
  | _, _ => SVal.n 0

/-- The comparator passed to `Array.prototype.sort` by `applySorting`. -/
def jsSortCmp (sort : GSort) (a b : GUser) : Int :=
  let aVal := sortVal sort.field a
  let bVal := sortVal sort.field b
  let isDesc := sort.order = 2
  if ltSVal aVal bVal then (if isDesc then 1 else -1)
  else if ltSVal bVal aVal then (if isDesc then -1 else 1)
  else 0

/-- `applySorting(userList, sort)`: stable sort by the comparator;
unchanged when no valid sort field is given (`fieldMap` covers 1..6). -/
def applySorting (userList : List GUser) (sort : Option GSort) : List GUser :=
  match sort with
  | none => userList
  | some s =>
    if 1 ≤ s.field ∧ s.field ≤ 6 then
      userList.insertionSort (fun a b => jsSortCmp s a b ≤ 0)
    else userList

/-- `u.id === decoded.id` (ids are modelled numerically; a string-typed
payload value is a strict-equality type mismatch, hence `false`). -/
def userIdMatches (u : GUser) (p : JPrim) : Bool :=
  match p with
  | JPrim.num n => (u.id : Int) = n
  | JPrim.str _ => false

/-- `min(100, max(1, page_size))` -/
def grpcLimit (page_size : Int) : Nat := (min 100 (max 1 page_size)).toNat

/-- The start index of `ListUsersCursor`: decode the token, locate the
referenced record by id, start after it; on any failure start at 0. -/
def cursorStart (filteredUsers : List GUser) (page_token : JSStr) : Nat :=
  if page_token ≠ [] then
    match decodeCursor page_token with
    | some decoded =>
      match jGet decoded idKey with
      | some pid =>
        match filteredUsers.findIdx? (fun u => userIdMatches u pid) with
        | some i => i + 1
        | none => 0
      | none => 0
    | none => 0
  else 0

/-- The `ListUsersCursorResponse` message. -/
structure CursorPage where
  users : List GUser
  next_page_token : JSStr
  has_more : Bool
  total_count : Nat
deriving DecidableEq

/-- The page-window portion of `ListUsersCursor`, over the already
filtered-and-sorted list: locate the cursor, fetch `limit + 1` records,
drop the probe record, and build the next token from the last returned
record's id. -/
def cursorPageCore (filteredUsers : List GUser) (limit : Nat) (page_token : JSStr) :
    CursorPage :=
  let startIndex := cursorStart filteredUsers page_token
  let pageUsers := (filteredUsers.drop startIndex).take (limit + 1)
  let hasMore := decide (limit < pageUsers.length)
  let results := if hasMore then pageUsers.take limit else pageUsers
  let nextTok :=
    if hasMore then
      match results.getLast? with
      | some u => encodeCursor [(idKey, JPrim.num u.id)]
      | none => []
    else []
  ⟨results, nextTok, hasMore, filteredUsers.length⟩

/-- The `ListUsersCursor` RPC handler: clamp the page size, filter, sort,
then the cursor page window. -/
def listUsersCursor (db : List GUser) (page_size : Int) (page_token : JSStr)
    (filter : Option GFilter) (sort : Option GSort) : CursorPage :=
  cursorPageCore (applySorting (applyFilters db filter) sort) (grpcLimit page_size)
    page_token

/-- The `ListUsersOffsetResponse` message. -/
structure OffsetPage where
  users : List GUser
  total_count : Nat
  total_pages : Nat
  current_page : Nat
  has_next_page : Bool
  has_previous_page : Bool
deriving DecidableEq

/-- The `ListUsersOffset` RPC handler (`Math.ceil(a/b) = (a+b-1)/b`). -/
def listUsersOffset (db : List GUser) (page_size : Int) (page_number : Int)
    (filter : Option GFilter) (sort : Option GSort) : OffsetPage :=
  let limit := grpcLimit page_size
  let page := (max 1 page_number).toNat
  let offset := (page - 1) * limit
  let filteredUsers := applySorting (applyFilters db filter) sort
  let totalCount := filteredUsers.length
  let totalPages := (totalCount + limit - 1) / limit
  let pageUsers := (filteredUsers.drop offset).take limit
  ⟨pageUsers, totalCount, totalPages, page,
   decide (page < totalPages), decide (1 < page)⟩

/-- The `StreamUsers` RPC handler: the full sequence of records written to
the stream, in order (each `call.write` emits one record). -/
def streamUsers (db : List GUser) (filter : Option GFilter) (sort : Option GSort)
    (limit : Nat) : List GUser :=
  let filteredUsers := applySorting (applyFilters db filter) sort
  if 0 < limit then filteredUsers.take limit else filteredUsers

/-- `calculateSearchScore(user, query)`: fixed-constant weighted sum. -/
def calculateSearchScore (user : GUser) (query : JSStr) : Nat :=
  let term := jsToLower query
  let s1 :=
    if jsToLower user.email = term then 100
    else if includesL (jsToLower user.email) term then 30 else 0
  let fullName := jsToLower (user.first_name ++ ' ' :: user.last_name)
  let s2 := if fullName = term then 80 else if includesL fullName term then 40 else 0
  let s3 := if startsWithL (jsToLower user.first_name) term then 20 else 0
  let s4 := if startsWithL (jsToLower user.last_name) term then 20 else 0
  s1 + s2 + s3 + s4

/-- One entry of the `SearchUsers` result list. -/
structure ScoredUser where
  user : GUser
  score : Nat
deriving DecidableEq

/-- The ranked list built by `SearchUsers` before pagination: with a query,
score each record, drop zero scores, stable-sort by score descending
(`(a,b) => b.score - a.score`); without a query, everything at score 1. -/
def rankedResults (filteredUsers : List GUser) (query : JSStr) : List ScoredUser :=
  if query ≠ [] then
    ((filteredUsers.map (fun u => ScoredUser.mk u (calculateSearchScore u query))).filter
      (fun r => 0 < r.score)).insertionSort
      (fun a b => (b.score : Int) - (a.score : Int) ≤ 0)
  else filteredUsers.map (fun u => ScoredUser.mk u 1)

/-- The re-sort branch of `SearchUsers` when an explicit sort is given:
`applySorting(searchResults.map(r => r.user), sort).map(user =>
searchResults.find(r => r.user.id === user.id))`.  `find` cannot miss
(every sorted user came from `searchResults`), so the total rendering uses
`filterMap`. -/
def searchResorted (searchResults : List ScoredUser) (sortedUsers : List GUser) :
    List ScoredUser :=
  sortedUsers.filterMap (fun user => searchResults.find? (fun r => r.user.id = user.id))

/-- Start index of `SearchUsers` cursor lookup (`r.user.id === decoded.id`). -/
def scoredCursorStart (searchResults : List ScoredUser) (page_token : JSStr) : Nat :=
  if page_token ≠ [] then
    match decodeCursor page_token with
    | some decoded =>
      match jGet decoded idKey with
      | some pid =>
        match searchResults.findIdx? (fun r => userIdMatches r.user pid) with
        | some i => i + 1
        | none => 0
      | none => 0
    | none => 0
  else 0

/-- The `SearchUsersResponse` message. -/
structure SearchResp where
  results : List ScoredUser
  next_page_token : JSStr
  has_more : Bool
  total_count : Nat
deriving DecidableEq

/-- The page-window portion of `SearchUsers`, over the ranked list. -/
def scoredPageCore (searchResults : List ScoredUser) (limit : Nat)
    (page_token : JSStr) : SearchResp :=
  let startIndex := scoredCursorStart searchResults page_token
  let pageResults := (searchResults.drop startIndex).take (limit + 1)
  let hasMore := decide (limit < pageResults.length)
  let results := if hasMore then pageResults.take limit else pageResults
  let nextTok :=
    if hasMore then
      match results.getLast? with
      | some r => encodeCursor [(idKey, JPrim.num r.user.id)]
      | none => []
    else []
  ⟨results, nextTok, hasMore, searchResults.length⟩

/-- The `SearchUsers` RPC handler. -/
def searchUsers (db : List GUser) (query : JSStr) (filter : Option GFilter)
    (page_size : Int) (page_token : JSStr) (sort : Option GSort) : SearchResp :=
  let filteredUsers := applyFilters db filter
  let searchResults := rankedResults filteredUsers query
  let searchResults :=
    match sort with
    | some s =>
      if s.field ≠ 0 then
        searchResorted searchResults
          (applySorting (searchResults.map (fun r => r.user)) (some s))
      else searchResults
    | none => searchResults
  scoredPageCore searchResults (grpcLimit page_size) page_token

/-- The cursor-page loop over an already filtered-and-sorted list (what the
repeated `ListUsersCursor` calls compute, since the filter and sort of a
static database are recomputed identically on every call). -/
def collectCore (S : List GUser) (limit : Nat) : Nat → JSStr → List GUser
  | 0, _ => []
  | fuel + 1, tok =>
    let page := cursorPageCore S limit tok
    if page.has_more then
      page.users ++ collectCore S limit fuel page.next_page_token
    else page.users

/-- A client following cursor pages: call `ListUsersCursor`, and while
`has_more`, call again with the returned `next_page_token`; the
concatenation of the returned pages (fuel bounds the number of calls). -/
def collectPages (db : List GUser) (filter : Option GFilter) (sort : Option GSort)
    (page_size : Int) : Nat → JSStr → List GUser
  | 0, _ => []
  | fuel + 1, tok =>
    let page := listUsersCursor db page_size tok filter sort
    if page.has_more then
      page.users ++ collectPages db filter sort page_size fuel page.next_page_token
    else page.users

end Grpc


namespace Gql

/-! ### GraphQL server model (the GraphQL implementation file)

Records: ids are `String(1)..String(150)`, modelled numerically; `createdAt`
is an ISO-8601 timestamp string, modelled by its epoch-millisecond value
(fixed-width ISO strings compare lexicographically exactly in chronological
order, and the date filters compare `new Date(...)` values, so ordering and
comparisons are preserved; no claim inspects the rendered text). -/

/-- A user record of the GraphQL mock database. -/
structure GqlUser where
  id : Nat
  firstName : JSStr
  lastName : JSStr
  email : JSStr
  age : Nat
  status : JSStr
  role : JSStr
  createdAtMs : Nat
  department : JSStr
  salary : Nat
deriving DecidableEq

/-- The user at index `i` of the mock database. -/
def mkUser (now : Nat) (i : Nat) : GqlUser :=
  ⟨i + 1,
   Grpc.firstNames.getD (i % 5) [],
   Grpc.lastNames.getD (i % 5) [],
   "user".data ++ natChars (i + 1) ++ "@example.com".data,
   20 + i % 40,
   ["ACTIVE".data, "INACTIVE".data, "PENDING".data].getD (i % 3) [],
   ["ADMIN".data, "USER".data, "MODERATOR".data].getD (i % 3) [],
   now - i * 86400000,
   Grpc.departmentNames.getD (i % 4) [],
   50000 + i * 1000⟩

/-- The 150-record mock database. -/
def users (now : Nat) : List GqlUser := (List.range 150).map (mkUser now)

/-- The recursive `UserFilter` input: `or`/`and` combinator lists plus leaf
conditions (absent GraphQL inputs are `undefined`, hence `Option`). -/
inductive UserFilter where
  | mk (orF : List UserFilter) (andF : List UserFilter)
      (status : Option JSStr) (statusIn : Option (List JSStr))
      (role : Option JSStr)
      (department : Option JSStr) (departmentIn : Option (List JSStr))
      (ageGte : Option Nat) (ageLte : Option Nat) (ageEq : Option Nat)
      (salaryGte : Option Nat) (salaryLte : Option Nat)
      (createdAfter : Option Nat) (createdBefore : Option Nat)
      (search : Option JSStr) (emailContains : Option JSStr)

/-- `applyFilters(userList, filter)` for a present filter: the OR branch
unions the ids of each sub-filter applied to the *original* list; the AND
branch threads the running result through each sub-filter; then each
present leaf condition filters in turn. -/
def applyFilter (userList : List GqlUser) : UserFilter → List GqlUser
  | UserFilter.mk orF andF status statusIn role department departmentIn
      ageGte ageLte ageEq salaryGte salaryLte createdAfter createdBefore
      search emailContains =>
    let r := userList
    let r :=
      if 0 < orF.length then
        let orIds :=
          ((orF.attach.map (fun g => applyFilter userList g.1)).flatten).map GqlUser.id
        r.filter (fun u => orIds.contains u.id)
      else r
    let r :=
      if 0 < andF.length then andF.attach.foldl (fun acc g => applyFilter acc g.1) r
      else r
    let r := optFilter status (fun v u => u.status = v) r
    let r := optFilter statusIn (fun v u => v.contains u.status) r
    let r := optFilter role (fun v u => u.role = v) r
    let r := optFilter department (fun v u => u.department = v) r
    let r := optFilter departmentIn (fun v u => v.contains u.department) r
    let r := optFilter ageGte (fun v u => v ≤ u.age) r
    let r := optFilter ageLte (fun v u => u.age ≤ v) r
    let r := optFilter ageEq (fun v u => u.age = v) r
    let r := optFilter salaryGte (fun v u => v ≤ u.salary) r
    let r := optFilter salaryLte (fun v u => u.salary ≤ v) r
    let r := optFilter createdAfter (fun v u => v ≤ u.createdAtMs) r
    let r := optFilter createdBefore (fun v u => u.createdAtMs ≤ v) r
    let r := optFilter search
      (fun v u =>
        includesL (jsToLower u.firstName) (jsToLower v) ||
        includesL (jsToLower u.lastName) (jsToLower v) ||
        includesL (jsToLower u.email) (jsToLower v)) r
    let r := optFilter emailContains
      (fun v u => includesL (jsToLower u.email) (jsToLower v)) r
    r
  termination_by f => sizeOf f
  decreasing_by
  all_goals
    have hm := List.sizeOf_lt_of_mem g.2
    simp only [UserFilter.mk.sizeOf_spec] at *
    omega

/-- `applyFilters` with the absent-filter guard. -/
def applyFilters (userList : List GqlUser) : Option UserFilter → List GqlUser
  | none => userList
  | some f => applyFilter userList f

/-- The `UserSortField` enum. -/
inductive SortField where
  | created_at | first_name | last_name | email | age | salary
deriving DecidableEq

/-- The `UserSort` input (`order` is the enum name, `DESC` for descending). -/
structure GqlSort where
  field : SortField
  order : JSStr
deriving DecidableEq

/-- The comparison value read by the comparator (strings lowercased;
`createdAt` ISO strings ordered chronologically, see above). -/
def sortVal : SortField → GqlUser → SVal
  | SortField.created_at, u => SVal.n u.createdAtMs
  | SortField.first_name, u => SVal.s (jsToLower u.firstName)
  | SortField.last_name, u => SVal.s (jsToLower u.lastName)
  | SortField.email, u => SVal.s (jsToLower u.email)
  | SortField.age, u => SVal.n u.age
  | SortField.salary, u => SVal.n u.salary

/-- The comparator passed to `Array.prototype.sort` by `applySorting`. -/
def gqlSortCmp (sort : GqlSort) (a b : GqlUser) : Int :=
  let aVal := sortVal sort.field a
  let bVal := sortVal sort.field b
  let isDesc := sort.order = "DESC".data
  if ltSVal aVal bVal then (if isDesc then 1 else -1)
  else if ltSVal bVal aVal then (if isDesc then -1 else 1)
  else 0

/-- `applySorting(userList, sort)`. -/
def applySorting (userList : List GqlUser) (sort : Option GqlSort) : List GqlUser :=
  match sort with
  | none => userList
  | some s => userList.insertionSort (fun a b => gqlSortCmp s a b ≤ 0)

/-- `u.id === decoded.id` (numeric id model). -/
def gqlIdMatches (u : GqlUser) (p : JPrim) : Bool :=
  match p with
  | JPrim.num n => (u.id : Int) = n
  | JPrim.str _ => false

/-- Start index from an `after` cursor: one past the referenced record;
0 when the token does not decode or the record is not found. -/
def afterIndex (filteredUsers : List GqlUser) (tok : JSStr) : Nat :=
  match decodeCursor tok with
  | some decoded =>
    match jGet decoded idKey with
    | some pid =>
      match filteredUsers.findIdx? (fun u => gqlIdMatches u pid) with
      | some i => i + 1
      | none => 0
    | none => 0
  | none => 0

/-- End index from a `before` cursor: the referenced record's position;
the list length when the token does not decode or the record is missing. -/
def beforeIndex (filteredUsers : List GqlUser) (tok : JSStr) : Nat :=
  match decodeCursor tok with
  | some decoded =>
    match jGet decoded idKey with
    | some pid =>
      match filteredUsers.findIdx? (fun u => gqlIdMatches u pid) with
      | some i => i
      | none => filteredUsers.length
    | none => filteredUsers.length
  | none => filteredUsers.length

/-- A Relay edge. -/
structure Edge where
  cursor : JSStr
  node : GqlUser
deriving DecidableEq

/-- Relay `PageInfo`. -/
structure PageInfo where
  hasNextPage : Bool
  hasPreviousPage : Bool
  startCursor : Option JSStr
  endCursor : Option JSStr
deriving DecidableEq

/-- A Relay connection. -/
structure Connection where
  edges : List Edge
  pageInfo : PageInfo
  totalCount : Nat
deriving DecidableEq

/-- The validation errors thrown by the `users` resolver. -/
inductive GqlErr where
  | firstAndLast
  | negativeFirst
  | negativeLast
deriving DecidableEq

/-- An edge for a user: cursor plus node. -/
def mkEdge (u : GqlUser) : Edge := ⟨encodeCursor [(idKey, JPrim.num u.id)], u⟩

/-- `edges[0].cursor` / `edges[edges.length-1].cursor`, `null` when empty. -/
def startCur (edges : List Edge) : Option JSStr :=
  match edges.head? with
  | some e => some e.cursor
  | none => none

/-- Last edge cursor, `null` when empty. -/
def endCur (edges : List Edge) : Option JSStr :=
  match edges.getLast? with
  | some e => some e.cursor
  | none => none

/-- The Relay `users` resolver: validation, filter, sort, cursor location,
slice, then forward (`first`), backward (`last`) or default shaping. -/
def usersResolver (db : List GqlUser) (first : Option Int) (afterTok : Option JSStr)
    (last : Option Int) (beforeTok : Option JSStr) (filter : Option UserFilter)
    (sort : Option GqlSort) : Except GqlErr Connection :=
  if first ≠ none ∧ last ≠ none then Except.error GqlErr.firstAndLast
  else if first.getD 0 < 0 then Except.error GqlErr.negativeFirst
  else if last.getD 0 < 0 then Except.error GqlErr.negativeLast
  else
    let filteredUsers := applySorting (applyFilters db filter) sort
    let limit := jsOrInt first (jsOrInt last 20)
    let actualLimit := min limit 100
    let al := actualLimit.toNat
    let startIndex :=
      match afterTok with
      | some tok => afterIndex filteredUsers tok
      | none => 0
    let endIndex :=
      match beforeTok with
      | some tok => beforeIndex filteredUsers tok
      | none => filteredUsers.length
    let slicedUsers := (filteredUsers.take endIndex).drop startIndex
    if first ≠ none then
      let edges := (slicedUsers.take al).map mkEdge
      Except.ok ⟨edges,
        ⟨decide (al < slicedUsers.length), decide (0 < startIndex),
         startCur edges, endCur edges⟩,
        filteredUsers.length⟩
    else if last ≠ none then
      let startSlice := ((slicedUsers.length : Int) - actualLimit).toNat
      let edges := (slicedUsers.drop startSlice).map mkEdge
      Except.ok ⟨edges,
        ⟨decide (endIndex < filteredUsers.length), decide (al < slicedUsers.length),
         startCur edges, endCur edges⟩,
        filteredUsers.length⟩
    else
      let edges := (slicedUsers.take al).map mkEdge
      Except.ok ⟨edges,
        ⟨decide (al < slicedUsers.length), decide (0 < startIndex),
         startCur edges, endCur edges⟩,
        filteredUsers.length⟩

end Gql

namespace Rest

/-! ### REST server model (`rest-api/server.js`)

Records: ids are the numbers `1..150`; `created_at` is an ISO timestamp
string produced by `Date#toISOString`, whose rendering is not modelled: the
record generator takes it as an opaque function `iso` of the epoch value.
No claim inspects it (the cursor endpoints never read `created_at`, and the
compound-cursor theorems quantify over the sort field). -/

/-- A user record of the REST mock database. -/
structure RUser where
  id : Nat
  first_name : JSStr
  last_name : JSStr
  email : JSStr
  age : Nat
  status : JSStr
  role : JSStr
  created_at : JSStr
  department : JSStr
  salary : Nat
deriving DecidableEq

/-- The user at index `i` (given the `Date#toISOString` rendering `iso`). -/
def mkUser (iso : Nat → JSStr) (now : Nat) (i : Nat) : RUser :=
  ⟨i + 1,
   Grpc.firstNames.getD (i % 5) [],
   Grpc.lastNames.getD (i % 5) [],
   "user".data ++ natChars (i + 1) ++ "@example.com".data,
   20 + i % 40,
   ["active".data, "inactive".data, "pending".data].getD (i % 3) [],
   ["admin".data, "user".data, "moderator".data].getD (i % 3) [],
   iso (now - i * 86400000),
   Grpc.departmentNames.getD (i % 4) [],
   50000 + i * 1000⟩

/-- The 150-record mock database. -/
def users (iso : Nat → JSStr) (now : Nat) : List RUser :=
  (List.range 150).map (mkUser iso now)

/-- `min(100, max(1, parseInt(req.query.limit) || 20))` (an absent or
unparsable or zero `limit` falls back to 20). -/
def restLimit (limitQ : Option Int) : Nat :=
  (min 100 (max 1 (jsOrInt limitQ 20))).toNat

/-- The 400 responses of the cursor endpoints. -/
inductive RestErr where
  | invalidCursor
  | cursorNotFound
deriving DecidableEq

/-- `u.id === decoded.id` for a possibly-missing decoded id. -/
def ridMatches (u : RUser) (p : Option JPrim) : Bool :=
  match p with
  | some (JPrim.num n) => (u.id : Int) = n
  | _ => false

/-- Response of `GET /api/v1/users/cursor`. -/
structure CurResp where
  data : List RUser
  has_more : Bool
  next : Option JSStr
  prev : Option JSStr
deriving DecidableEq

/-- Window portion shared by the cursor endpoints: fetch `limit + 1`
records from `startIndex`, drop the probe record. -/
def curWindow (db : List RUser) (limit startIndex : Nat) : List RUser × Bool :=
  let paginatedUsers := (db.drop startIndex).take (limit + 1)
  let hasMore := decide (limit < paginatedUsers.length)
  (if hasMore then paginatedUsers.take limit else paginatedUsers, hasMore)

/-- `GET /api/v1/users/cursor`: id-keyed cursor pagination over the raw
database order.  A token that does not decode is a 400 `INVALID_CURSOR`; a
token whose record is absent is a 400 `CURSOR_NOT_FOUND`. -/
def usersCursor (db : List RUser) (limitQ : Option Int) (cursorQ : Option JSStr) :
    Except RestErr CurResp :=
  let limit := restLimit limitQ
  let mkResp : Nat → CurResp := fun startIndex =>
    let w := curWindow db limit startIndex
    let results := w.1
    let nextCursor :=
      if w.2 then
        match results.getLast? with
        | some u => some (encodeCursor [(idKey, JPrim.num u.id)])
        | none => none
      else none
    let prevCursor :=
      if 0 < startIndex then
        match db.get? (startIndex - 1) with
        | some u => some (encodeCursor [(idKey, JPrim.num u.id)])
        | none => none
      else none
    ⟨results, w.2, nextCursor, prevCursor⟩
  match cursorQ with
  | none => Except.ok (mkResp 0)
  | some cursor =>
    match decodeCursor cursor with
    | none => Except.error RestErr.invalidCursor
    | some decoded =>
      match db.findIdx? (fun u => ridMatches u (jGet decoded idKey)) with
      | none => Except.error RestErr.cursorNotFound
      | some cursorIndex => Except.ok (mkResp (cursorIndex + 1))

/-- The sortable field named by `req.query.sort_by` (modelled for the known
record fields; the endpoint defaults to `created_at`). -/
inductive RField where
  | rid | first_name | last_name | email | age | status | role
  | created_at | department | salary
deriving DecidableEq

/-- `u[sortBy]` as a comparison value (raw field values; the compound-cursor
endpoint does not lowercase). -/
def fieldVal : RField → RUser → SVal
  | RField.rid, u => SVal.n u.id
  | RField.first_name, u => SVal.s u.first_name
  | RField.last_name, u => SVal.s u.last_name
  | RField.email, u => SVal.s u.email
  | RField.age, u => SVal.n u.age
  | RField.status, u => SVal.s u.status
  | RField.role, u => SVal.s u.role
  | RField.created_at, u => SVal.s u.created_at
  | RField.department, u => SVal.s u.department
  | RField.salary, u => SVal.n u.salary

/-- The comparator of `GET /api/v1/users/cursor-sorted`:
`comparison = aVal < bVal ? -1 : aVal > bVal ? 1 : 0`, negated for `desc`. -/
def csCmp (sortBy : RField) (sortOrder : JSStr) (a b : RUser) : Int :=
  let aVal := fieldVal sortBy a
  let bVal := fieldVal sortBy b
  let comparison : Int := if ltSVal aVal bVal then -1 else if ltSVal bVal aVal then 1 else 0
  if sortOrder = "desc".data then -comparison else comparison

/-- JS `u[sortBy] < decoded.sort_value` (strict-typed; `undefined` or a
kind mismatch is `false`, as for the engine's own tokens the kinds always
agree). -/
def valLtPrim (v : SVal) (p : Option JPrim) : Bool :=
  match v, p with
  | SVal.n a, some (JPrim.num b) => (a : Int) < b
  | SVal.s a, some (JPrim.str b) => lexLt a b
  | _, _ => false

/-- JS `u[sortBy] > decoded.sort_value`. -/
def valGtPrim (v : SVal) (p : Option JPrim) : Bool :=
  match v, p with
  | SVal.n a, some (JPrim.num b) => b < (a : Int)
  | SVal.s a, some (JPrim.str b) => lexLt b a
  | _, _ => false

/-- JS `u[sortBy] === decoded.sort_value`. -/
def valEqPrim (v : SVal) (p : Option JPrim) : Bool :=
  match v, p with
  | SVal.n a, some (JPrim.num b) => (a : Int) = b
  | SVal.s a, some (JPrim.str b) => a = b
  | _, _ => false

/-- JS `u.id < decoded.id`. -/
def idLtPrim (id : Nat) (p : Option JPrim) : Bool :=
  match p with
  | some (JPrim.num n) => (id : Int) < n
  | _ => false

/-- JS `u.id > decoded.id`. -/
def idGtPrim (id : Nat) (p : Option JPrim) : Bool :=
  match p with
  | some (JPrim.num n) => n < (id : Int)
  | _ => false

/-- The `findIndex` predicate of `cursor-sorted`: the first record whose
compound key `(sort_value, id)` strictly succeeds the decoded tuple in the
active direction. -/
def csSucc (sortBy : RField) (sortOrder : JSStr) (decoded : JObj) (u : RUser) : Bool :=
  let sv := jGet decoded "sort_value".data
  let did := jGet decoded idKey
  if sortOrder = "desc".data then
    valLtPrim (fieldVal sortBy u) sv ||
      (valEqPrim (fieldVal sortBy u) sv && idLtPrim u.id did)
  else
    valGtPrim (fieldVal sortBy u) sv ||
      (valEqPrim (fieldVal sortBy u) sv && idGtPrim u.id did)

/-- A sort-key value as a compound-cursor payload value. -/
def svalPrim : SVal → JPrim
  | SVal.n v => JPrim.num (v : Int)
  | SVal.s v => JPrim.str v

/-- Response of `GET /api/v1/users/cursor-sorted`. -/
structure CSResp where
  data : List RUser
  has_more : Bool
  next : Option JSStr
deriving DecidableEq

/-- `GET /api/v1/users/cursor-sorted`: sort by the requested field (stable),
locate the first strict successor of the decoded compound key, return the
window from there; only an undecodable token is an error. -/
def cursorSorted (db : List RUser) (limitQ : Option Int) (cursorQ : Option JSStr)
    (sortBy : RField) (sortOrder : JSStr) : Except RestErr CSResp :=
  let limit := restLimit limitQ
  let sortedUsers := db.insertionSort (fun a b => csCmp sortBy sortOrder a b ≤ 0)
  let mkResp : Nat → CSResp := fun startIndex =>
    let w := curWindow sortedUsers limit startIndex
    let results := w.1
    let nextCursor :=
      if w.2 then
        match results.getLast? with
        | some u => some (encodeCursor
            [("sort_value".data, svalPrim (fieldVal sortBy u)), (idKey, JPrim.num u.id)])
        | none => none
      else none
    ⟨results, w.2, nextCursor⟩
  match cursorQ with
  | none => Except.ok (mkResp 0)
  | some cursor =>
    match decodeCursor cursor with
    | none => Except.error RestErr.invalidCursor
    | some decoded =>
      let startIndex :=
        match sortedUsers.findIdx? (csSucc sortBy sortOrder decoded) with
        | some i => i
        | none => sortedUsers.length
      Except.ok (mkResp startIndex)

end Rest


/-- The filter `{ or: [], and: [] }`: both combinators present with zero
children, every leaf absent. -/
def Gql.emptyCombinatorFilter : Gql.UserFilter :=
  Gql.UserFilter.mk [] [] none none none none none none none none none none
    none none none none


/-- `ListUsers` of the standalone gRPC server (`grpc-api/server.js`): cursor
pagination over the raw database with no filter/sort; its body is
character-for-character the cursor-window code of `ListUsersCursor`
(locate by id, `slice(start, start+limit+1)`, probe record, token from the
last returned id), so it is the same page-window function. -/
def Rpc.listUsers (db : List Grpc.GUser) (page_size : Int) (page_token : JSStr) :
    Grpc.CursorPage :=
  Grpc.cursorPageCore db (Grpc.grpcLimit page_size) page_token

-- ===== THEOREMS =====

theorem lexLt_irrefl : ∀ s : JSStr, lexLt s s = false
  | [] => rfl
  | a :: s => by simp [lexLt, lexLt_irrefl s]

theorem lexLt_asymm : ∀ {s t : JSStr}, lexLt s t = true → lexLt t s = false
  | [], _ :: _, _ => rfl
  | a :: s, b :: t, h => by
    simp only [lexLt] at h ⊢
    rcases Nat.lt_trichotomy a.toNat b.toNat with hlt | heq | hgt
    · simp [hlt, Nat.lt_asymm hlt]
    · simp only [heq, Nat.lt_irrefl, if_false] at h ⊢
      exact lexLt_asymm h
    · simp [hgt, Nat.lt_asymm hgt] at h

theorem char_eq_of_toNat_eq {a b : Char} (h : a.toNat = b.toNat) : a = b := by
  have : a.val = b.val := by
    unfold Char.toNat at h
    exact UInt32.toNat.inj h
  exact Char.eq_of_val_eq this

theorem lexLt_eq_of_not : ∀ {s t : JSStr}, lexLt s t = false → lexLt t s = false → s = t
  | [], [], _, _ => rfl
  | [], _ :: _, h, _ => by simp [lexLt] at h
  | _ :: _, [], _, h => by simp [lexLt] at h
  | a :: s, b :: t, h1, h2 => by
    simp only [lexLt] at h1 h2
    rcases Nat.lt_trichotomy a.toNat b.toNat with hlt | heq | hgt
    · simp [hlt] at h1
    · have hab : a = b := char_eq_of_toNat_eq heq
      subst hab
      simp only [Nat.lt_irrefl, if_false] at h1 h2
      rw [lexLt_eq_of_not h1 h2]
    · simp [hgt, Nat.lt_asymm hgt] at h2

theorem lexLt_trans : ∀ {s t u : JSStr},
    lexLt s t = true → lexLt t u = true → lexLt s u = true
  | [], [], _, h1, _ => by simp [lexLt] at h1
  | _ :: _, [], _, h1, _ => by simp [lexLt] at h1
  | _, _ :: _, [], _, h2 => by simp [lexLt] at h2
  | [], _ :: _, _ :: _, _, _ => rfl
  | a :: s, b :: t, c :: u, h1, h2 => by
    simp only [lexLt] at h1 h2 ⊢
    by_cases hab : a.toNat < b.toNat
    · by_cases hbc : b.toNat < c.toNat
      · simp [Nat.lt_trans hab hbc]
      · simp only [if_neg hbc] at h2
        by_cases hcb : c.toNat < b.toNat
        · simp [if_pos hcb] at h2
        · have hbceq : b.toNat = c.toNat :=
            Nat.le_antisymm (Nat.not_lt.mp hcb) (Nat.not_lt.mp hbc)
          simp [if_pos (hbceq ▸ hab)]
    · simp only [if_neg hab] at h1
      by_cases hba : b.toNat < a.toNat
      · simp [if_pos hba] at h1
      · simp only [if_neg hba] at h1
        have habeq : a.toNat = b.toNat :=
          Nat.le_antisymm (Nat.not_lt.mp hba) (Nat.not_lt.mp hab)
        by_cases hbc : b.toNat < c.toNat
        · simp [if_pos (habeq ▸ hbc)]
        · simp only [if_neg hbc] at h2
          by_cases hcb : c.toNat < b.toNat
          · simp [if_pos hcb] at h2
          · simp only [if_neg hcb] at h2
            have hbceq : b.toNat = c.toNat :=
              Nat.le_antisymm (Nat.not_lt.mp hcb) (Nat.not_lt.mp hbc)
            have hac : ¬ a.toNat < c.toNat := by omega
            have hca : ¬ c.toNat < a.toNat := by omega
            simp only [if_neg hac, if_neg hca]
            exact lexLt_trans h1 h2

theorem digitChar_toNat : ∀ d, d < 10 → (digitChar d).toNat = 48 + d := by decide

theorem digitVal_digitChar : ∀ d, d < 10 → digitVal (digitChar d) = d := by decide

theorem isDigitC_digitChar : ∀ d, d < 10 → isDigitC (digitChar d) = true := by decide

theorem digitChar_ne_zero : ∀ d, d < 10 → 1 ≤ d → digitChar d ≠ '0' := by decide

theorem digitsVal_append_single (ds : List Nat) (d : Nat) :
    digitsVal (ds ++ [d]) = digitsVal ds * 10 + d := by
  simp [digitsVal, List.foldl_append]

theorem natCharsAux_spec : ∀ f n, n < f →
    natCharsAux f n ≠ [] ∧ digitsVal ((natCharsAux f n).map digitVal) = n := by
  intro f
  induction f with
  | zero => omega
  | succ f ih =>
    intro n hn
    by_cases h10 : n < 10
    · simp [natCharsAux, h10, digitsVal, digitVal_digitChar n h10]
    · have hrec := ih (n / 10) (by omega)
      simp only [natCharsAux, if_neg h10]
      refine ⟨by simp, ?_⟩
      rw [List.map_append, List.map_singleton, digitsVal_append_single, hrec.2,
        digitVal_digitChar _ (by omega)]
      omega

theorem natChars_ne_nil (n : Nat) : natChars n ≠ [] :=
  (natCharsAux_spec (n + 1) n (by omega)).1

theorem natChars_val (n : Nat) : digitsVal ((natChars n).map digitVal) = n :=
  (natCharsAux_spec (n + 1) n (by omega)).2

theorem natCharsAux_all_digits : ∀ f n, ∀ c ∈ natCharsAux f n, isDigitC c = true := by
  intro f
  induction f with
  | zero => simp [natCharsAux]
  | succ f ih =>
    intro n c hc
    by_cases h10 : n < 10
    · simp only [natCharsAux, if_pos h10, List.mem_singleton] at hc
      exact hc ▸ isDigitC_digitChar n h10
    · simp only [natCharsAux, if_neg h10, List.mem_append, List.mem_singleton] at hc
      rcases hc with hc | hc
      · exact ih _ c hc
      · exact hc ▸ isDigitC_digitChar _ (by omega)

theorem natChars_all_digits (n : Nat) : ∀ c ∈ natChars n, isDigitC c = true :=
  natCharsAux_all_digits (n + 1) n

theorem natCharsAux_head_ne_zero : ∀ f n, n < f → 1 ≤ n →
    (natCharsAux f n).head? ≠ some '0' := by
  intro f
  induction f with
  | zero => omega
  | succ f ih =>
    intro n hn h1
    by_cases h10 : n < 10
    · simp only [natCharsAux, if_pos h10, List.head?_cons]
      intro hc
      exact digitChar_ne_zero n h10 h1 (Option.some.inj hc)
    · have hne := (natCharsAux_spec f (n / 10) (by omega)).1
      simp only [natCharsAux, if_neg h10]
      rw [List.head?_append_of_ne_nil _ hne]
      exact ih (n / 10) (by omega) (by omega)

theorem charSextet?_sextetChar : ∀ n, n < 64 → charSextet? (sextetChar n) = some n := by
  decide

theorem charSextet?_pad : charSextet? '=' = none := by decide

theorem filterMap_encodeB64 : ∀ bs : List Nat, allBelow 256 bs →
    (encodeB64 bs).filterMap charSextet? = byteSextets bs
  | [], _ => rfl
  | [b1], h => by
    have hb : b1 < 256 := h b1 (by simp)
    simp [encodeB64, byteSextets, List.filterMap_cons, charSextet?_pad,
      charSextet?_sextetChar (b1 / 4) (by omega),
      charSextet?_sextetChar (b1 % 4 * 16) (by omega)]
  | [b1, b2], h => by
    have hb1 : b1 < 256 := h b1 (by simp)
    have hb2 : b2 < 256 := h b2 (by simp)
    simp [encodeB64, byteSextets, List.filterMap_cons, charSextet?_pad,
      charSextet?_sextetChar (b1 / 4) (by omega),
      charSextet?_sextetChar (b1 % 4 * 16 + b2 / 16) (by omega),
      charSextet?_sextetChar (b2 % 16 * 4) (by omega)]
  | b1 :: b2 :: b3 :: rest, h => by
    have hb1 : b1 < 256 := h b1 (by simp)
    have hb2 : b2 < 256 := h b2 (by simp)
    have hb3 : b3 < 256 := h b3 (by simp)
    have ih := filterMap_encodeB64 rest (fun b hb => h b (by simp [hb]))
    simp [encodeB64, byteSextets, List.filterMap_cons,
      charSextet?_sextetChar (b1 / 4) (by omega),
      charSextet?_sextetChar (b1 % 4 * 16 + b2 / 16) (by omega),
      charSextet?_sextetChar (b2 % 16 * 4 + b3 / 64) (by omega),
      charSextet?_sextetChar (b3 % 64) (by omega), ih]

theorem sextetsBytes_byteSextets : ∀ bs : List Nat, allBelow 256 bs →
    sextetsBytes (byteSextets bs) = bs
  | [], _ => rfl
  | [b1], h => by
    have hb : b1 < 256 := h b1 (by simp)
    simp only [byteSextets, sextetsBytes, List.cons.injEq, and_true]
    omega
  | [b1, b2], h => by
    have hb1 : b1 < 256 := h b1 (by simp)
    have hb2 : b2 < 256 := h b2 (by simp)
    simp only [byteSextets, sextetsBytes, List.cons.injEq, and_true]
    constructor <;> omega
  | b1 :: b2 :: b3 :: rest, h => by
    have hb1 : b1 < 256 := h b1 (by simp)
    have hb2 : b2 < 256 := h b2 (by simp)
    have hb3 : b3 < 256 := h b3 (by simp)
    have ih := sextetsBytes_byteSextets rest (fun b hb => h b (by simp [hb]))
    simp only [byteSextets, sextetsBytes, ih, List.cons.injEq]
    refine ⟨by omega, by omega, by omega, trivial⟩

theorem decodeB64_encodeB64 (bs : List Nat) (h : allBelow 256 bs) :
    decodeB64 (encodeB64 bs) = bs := by
  unfold decodeB64
  rw [filterMap_encodeB64 bs h, sextetsBytes_byteSextets bs h]

theorem encodeB64_ne_nil : ∀ {bs : List Nat}, bs ≠ [] → encodeB64 bs ≠ []
  | [], h => absurd rfl h
  | [_], _ => by simp [encodeB64]
  | [_, _], _ => by simp [encodeB64]
  | _ :: _ :: _ :: _, _ => by simp [encodeB64]


theorem takeWhile_append_of_all {α : Type} {p : α → Bool} : ∀ {l1 l2 : List α},
    (∀ a ∈ l1, p a = true) → (∀ a, l2.head? = some a → p a = false) →
    (l1 ++ l2).takeWhile p = l1
  | [], l2, _, h2 => by
    cases l2 with
    | nil => rfl
    | cons b t => simp [List.takeWhile_cons, h2 b rfl]
  | a :: l1, l2, h1, h2 => by
    simp only [List.cons_append, List.takeWhile_cons, h1 a (List.mem_cons_self a l1),
      if_true]
    rw [takeWhile_append_of_all (fun x hx => h1 x (List.mem_cons_of_mem a hx)) h2]

theorem dropWhile_append_of_all {α : Type} {p : α → Bool} : ∀ {l1 l2 : List α},
    (∀ a ∈ l1, p a = true) → (∀ a, l2.head? = some a → p a = false) →
    (l1 ++ l2).dropWhile p = l2
  | [], l2, _, h2 => by
    cases l2 with
    | nil => rfl
    | cons b t => simp [List.dropWhile_cons, h2 b rfl]
  | a :: l1, l2, h1, h2 => by
    simp only [List.cons_append, List.dropWhile_cons, h1 a (List.mem_cons_self a l1),
      if_true]
    exact dropWhile_append_of_all (fun x hx => h1 x (List.mem_cons_of_mem a hx)) h2

theorem parseNumNat_natChars (m : Nat) (rest : JSStr)
    (hrest : ∀ c, rest.head? = some c → isDigitC c = false) :
    parseNumNat (natChars m ++ rest) = some (m, rest) := by
  have htake := takeWhile_append_of_all (p := isDigitC) (natChars_all_digits m) hrest
  have hdrop := dropWhile_append_of_all (p := isDigitC) (natChars_all_digits m) hrest
  unfold parseNumNat
  simp only [htake, hdrop]
  rw [if_neg (natChars_ne_nil m)]
  by_cases hm : m = 0
  · subst hm
    simp +decide [natChars, natCharsAux, digitsVal, digitVal]
  · rw [if_neg, natChars_val]
    intro hcon
    exact natCharsAux_head_ne_zero (m + 1) m (by omega) (by omega) hcon.1

theorem parseStr_escape : ∀ (s : JSStr) (rest : JSStr), wfStr s = true →
    parseStr (escapeStr s ++ ('"' :: rest)) = some (s, rest)
  | [], rest, _ => by
    simp only [escapeStr, List.nil_append]
    unfold parseStr
    rw [if_pos rfl]
  | c :: s, rest, h => by
    have hc : goodCharB c = true := by
      simp only [wfStr, List.all_cons, Bool.and_eq_true] at h
      exact h.1
    have hs : wfStr s = true := by
      simp only [wfStr, List.all_cons, Bool.and_eq_true] at h
      exact h.2
    have ih := parseStr_escape s rest hs
    by_cases hesc : c = '"' ∨ c = '\\'
    · simp only [escapeStr, if_pos hesc, List.cons_append]
      simp [parseStr, hesc, ih]
    · have hq : ¬ c = '"' := fun hh => hesc (Or.inl hh)
      have hb : ¬ c = '\\' := fun hh => hesc (Or.inr hh)
      have h32 : ¬ c.toNat < 32 := by
        simp only [goodCharB, Bool.and_eq_true, decide_eq_true_eq] at hc
        omega
      simp only [escapeStr, if_neg hesc, List.cons_append]
      unfold parseStr
      rw [if_neg hq, if_neg hb, if_neg h32, ih]
      rfl

theorem isDigitC_toNat {c : Char} (h : isDigitC c = true) :
    48 ≤ c.toNat ∧ c.toNat ≤ 57 := by
  simp only [isDigitC, Bool.and_eq_true, decide_eq_true_eq] at h
  exact h

theorem parsePrim_stringify (p : JPrim) (rest : JSStr) (hwf : wfPrim p = true)
    (hrest : ∀ c, rest.head? = some c → isDigitC c = false) :
    parsePrim (stringifyPrim p ++ rest) = some (p, rest) := by
  cases p with
  | str s =>
    simp only [stringifyPrim, List.cons_append, List.append_assoc,
      List.singleton_append]
    simp [parsePrim, parseStr_escape s rest hwf]
  | num n =>
    by_cases hneg : n < 0
    · simp only [stringifyPrim, intChars, if_pos hneg, List.cons_append]
      simp +decide [parsePrim, parseNumNat_natChars n.natAbs rest hrest]
      simp [abs_of_neg hneg]
    · simp only [stringifyPrim, intChars, if_neg hneg]
      obtain ⟨d, ds, hd⟩ : ∃ d ds, natChars n.natAbs = d :: ds := by
        cases hnc : natChars n.natAbs with
        | nil => exact absurd hnc (natChars_ne_nil _)
        | cons d ds => exact ⟨d, ds, rfl⟩
      have hdig : isDigitC d = true := by
        apply natChars_all_digits n.natAbs
        rw [hd]
        exact List.mem_cons_self d ds
      have hdn := isDigitC_toNat hdig
      have hq : ¬ d = '"' := by
        intro hh
        rw [hh] at hdn
        exact absurd hdn (by decide)
      have hm : ¬ d = '-' := by
        intro hh
        rw [hh] at hdn
        exact absurd hdn (by decide)
      rw [hd]
      simp only [List.cons_append, parsePrim]
      rw [if_neg hq, if_neg hm, ← List.cons_append, ← hd,
        parseNumNat_natChars n.natAbs rest hrest]
      simp only [Option.map_some', Option.some.injEq, Prod.mk.injEq, and_true,
        JPrim.num.injEq]
      omega

theorem parseField_stringify (f : JSStr × JPrim) (rest : JSStr)
    (hk : wfStr f.1 = true) (hv : wfPrim f.2 = true)
    (hrest : ∀ c, rest.head? = some c → isDigitC c = false) :
    parseField (stringifyField f ++ rest) = some (f, rest) := by
  obtain ⟨k, v⟩ := f
  simp only [stringifyField, List.cons_append, List.append_assoc, List.cons_append]
  simp [parseField, parseStr_escape k (':' :: (stringifyPrim v ++ rest)) hk,
    parsePrim_stringify v rest hv hrest]

theorem parseFieldsAux_stringify :
    ∀ (fuel : Nat) (fs : JObj) (rest : JSStr), fs ≠ [] → fs.length ≤ fuel →
    (∀ f ∈ fs, wfStr f.1 = true ∧ wfPrim f.2 = true) →
    (∀ c, rest.head? = some c → isDigitC c = false ∧ c ≠ ',') →
    parseFieldsAux fuel (joinComma (fs.map stringifyField) ++ rest) = some (fs, rest)
  | 0, fs, _, hne, hlen, _, _ => by
    cases fs with
    | nil => exact absurd rfl hne
    | cons f fs => simp at hlen
  | fuel + 1, [], rest, hne, _, _, _ => absurd rfl hne
  | fuel + 1, [f], rest, _, _, hwf, hrest => by
    simp only [List.map_cons, List.map_nil, joinComma, parseFieldsAux]
    rw [parseField_stringify f rest (hwf f (List.mem_singleton_self f)).1
      (hwf f (List.mem_singleton_self f)).2 (fun c hc => (hrest c hc).1)]
    cases rest with
    | nil => rfl
    | cons c rest2 =>
      simp only
      rw [if_neg (hrest c rfl).2]
  | fuel + 1, f :: f2 :: fs, rest, _, hlen, hwf, hrest => by
    have hjc : joinComma ((f :: f2 :: fs).map stringifyField) =
        stringifyField f ++ ',' :: joinComma ((f2 :: fs).map stringifyField) := by
      simp [joinComma]
    rw [hjc]
    simp only [List.append_assoc, List.cons_append, parseFieldsAux]
    rw [parseField_stringify f (',' :: (joinComma ((f2 :: fs).map stringifyField) ++ rest))
      (hwf f (List.mem_cons_self f _)).1 (hwf f (List.mem_cons_self f _)).2
      (fun c hc => by
        simp only [List.head?_cons, Option.some.injEq] at hc
        subst hc
        decide)]
    simp only [if_pos rfl]
    rw [parseFieldsAux_stringify fuel (f2 :: fs) rest (by simp)
      (by simp only [List.length_cons] at hlen ⊢; omega)
      (fun g hg => hwf g (List.mem_cons_of_mem f hg)) hrest]
    rfl

theorem stringifyField_ne_nil (f : JSStr × JPrim) : stringifyField f ≠ [] := by
  simp [stringifyField]

theorem joinComma_ne_nil : ∀ (x : JSStr) (xs : List JSStr), x ≠ [] →
    joinComma (x :: xs) ≠ []
  | x, [], hx => by simpa [joinComma] using hx
  | x, y :: ys, hx => by
    simp only [joinComma, ne_eq, List.append_eq_nil]
    intro hcon
    exact hx hcon.1

theorem joinComma_length : ∀ xs : List JSStr, (∀ x ∈ xs, x ≠ []) →
    xs.length ≤ (joinComma xs).length + 1
  | [], _ => by simp [joinComma]
  | [x], _ => by simp [joinComma]
  | x :: y :: xs, h => by
    have ih := joinComma_length (y :: xs) (fun z hz => h z (List.mem_cons_of_mem x hz))
    have hx : x ≠ [] := h x (List.mem_cons_self x _)
    have hx1 : 1 ≤ x.length := by
      cases x with
      | nil => exact absurd rfl hx
      | cons _ _ => simp
    simp only [joinComma, List.length_cons, List.length_append] at ih ⊢
    omega

theorem parseJson_stringifyObj (o : JObj)
    (hwf : ∀ f ∈ o, wfStr f.1 = true ∧ wfPrim f.2 = true) :
    parseJson (stringifyObj o) = some o := by
  cases o with
  | nil => rfl
  | cons f fs =>
    have hfne : ∀ x ∈ (f :: fs).map stringifyField, x ≠ [] := by
      intro x hx
      simp only [List.mem_map] at hx
      obtain ⟨g, _, hg⟩ := hx
      exact hg ▸ stringifyField_ne_nil g
    have hne : joinComma ((f :: fs).map stringifyField) ≠ [] := by
      simp only [List.map_cons]
      exact joinComma_ne_nil _ _ (stringifyField_ne_nil f)
    have hlen : (f :: fs).length ≤ (joinComma ((f :: fs).map stringifyField)).length + 1 := by
      have := joinComma_length ((f :: fs).map stringifyField) hfne
      simpa using this
    have hparse := parseFieldsAux_stringify
      ((joinComma ((f :: fs).map stringifyField) ++ ['}']).length + 1)
      (f :: fs) ['}'] (by simp)
      (by
        simp only [List.length_append, List.length_cons, List.length_nil,
          List.length_map] at hlen ⊢
        omega)
      hwf
      (fun c hc => by
        simp only [List.head?_cons, Option.some.injEq] at hc
        subst hc
        exact ⟨by decide, by decide⟩)
    have hne2 : ¬ (joinComma ((f :: fs).map stringifyField) ++ ['}'] = ['}']) := by
      intro hcon
      have hl := congrArg List.length hcon
      simp only [List.length_append, List.length_cons, List.length_nil] at hl
      have : joinComma ((f :: fs).map stringifyField) = [] := by
        cases hj : joinComma ((f :: fs).map stringifyField) with
        | nil => rfl
        | cons a as =>
          rw [hj] at hl
          simp at hl
      exact hne this
    simp only [stringifyObj, parseJson]
    rw [if_pos trivial, if_neg hne2, hparse]
    simp

theorem asciiStr_iff {s : JSStr} : asciiStr s = true ↔ ∀ c ∈ s, c.toNat < 128 := by
  simp [asciiStr, List.all_eq_true]

theorem wfObj_forall {o : JObj} (h : wfObj o = true) :
    ∀ f ∈ o, wfStr f.1 = true ∧ wfPrim f.2 = true := by
  intro f hf
  simp only [wfObj, List.all_eq_true] at h
  have := h f hf
  simpa [Bool.and_eq_true] using this

theorem goodCharB_lt {c : Char} (h : goodCharB c = true) : c.toNat < 128 := by
  simp only [goodCharB, Bool.and_eq_true, decide_eq_true_eq] at h
  exact h.2

theorem asciiStr_escape : ∀ s : JSStr, wfStr s = true → asciiStr (escapeStr s) = true
  | [], _ => rfl
  | c :: s, h => by
    have hc : goodCharB c = true := by
      simp only [wfStr, List.all_cons, Bool.and_eq_true] at h
      exact h.1
    have hs : wfStr s = true := by
      simp only [wfStr, List.all_cons, Bool.and_eq_true] at h
      exact h.2
    have ih := asciiStr_escape s hs
    rw [asciiStr_iff]
    intro d hd
    by_cases hesc : c = '"' ∨ c = '\\'
    · simp only [escapeStr, if_pos hesc, List.mem_cons] at hd
      rcases hd with hd | hd | hd
      · subst hd
        decide
      · subst hd
        exact goodCharB_lt hc
      · exact asciiStr_iff.mp ih d hd
    · simp only [escapeStr, if_neg hesc, List.mem_cons] at hd
      rcases hd with hd | hd
      · subst hd
        exact goodCharB_lt hc
      · exact asciiStr_iff.mp ih d hd

theorem asciiStr_natChars (n : Nat) : asciiStr (natChars n) = true := by
  rw [asciiStr_iff]
  intro c hc
  have := isDigitC_toNat (natChars_all_digits n c hc)
  omega

theorem asciiStr_intChars (n : Int) : asciiStr (intChars n) = true := by
  unfold intChars
  by_cases h : n < 0
  · rw [if_pos h]
    rw [asciiStr_iff]
    intro c hc
    rcases List.mem_cons.mp hc with hc | hc
    · subst hc
      decide
    · exact asciiStr_iff.mp (asciiStr_natChars n.natAbs) c hc
  · rw [if_neg h]
    exact asciiStr_natChars n.natAbs

theorem asciiStr_stringifyPrim (p : JPrim) (h : wfPrim p = true) :
    asciiStr (stringifyPrim p) = true := by
  cases p with
  | num n => exact asciiStr_intChars n
  | str s =>
    rw [asciiStr_iff]
    intro c hc
    simp only [stringifyPrim, List.mem_cons, List.mem_append] at hc
    rcases hc with hc | hc | hc | hc
    · subst hc; decide
    · exact asciiStr_iff.mp (asciiStr_escape s h) c hc
    · subst hc; decide
    · exact absurd hc (List.not_mem_nil c)

theorem asciiStr_stringifyField (f : JSStr × JPrim) (hk : wfStr f.1 = true)
    (hv : wfPrim f.2 = true) : asciiStr (stringifyField f) = true := by
  rw [asciiStr_iff]
  intro c hc
  simp only [stringifyField, List.mem_cons, List.mem_append] at hc
  rcases hc with hc | hc | hc | hc | hc
  · subst hc; decide
  · exact asciiStr_iff.mp (asciiStr_escape f.1 hk) c hc
  · subst hc; decide
  · subst hc; decide
  · exact asciiStr_iff.mp (asciiStr_stringifyPrim f.2 hv) c hc

theorem asciiStr_joinComma : ∀ xs : List JSStr, (∀ x ∈ xs, asciiStr x = true) →
    asciiStr (joinComma xs) = true
  | [], _ => rfl
  | [x], h => h x (List.mem_singleton_self x)
  | x :: y :: xs, h => by
    have ih := asciiStr_joinComma (y :: xs) (fun z hz => h z (List.mem_cons_of_mem x hz))
    rw [asciiStr_iff]
    intro c hc
    simp only [joinComma, List.mem_append, List.mem_cons] at hc
    rcases hc with hc | hc | hc
    · exact asciiStr_iff.mp (h x (List.mem_cons_self x _)) c hc
    · subst hc; decide
    · exact asciiStr_iff.mp ih c hc

theorem asciiStr_stringifyObj (o : JObj) (h : wfObj o = true) :
    asciiStr (stringifyObj o) = true := by
  rw [asciiStr_iff]
  intro c hc
  simp only [stringifyObj, List.mem_cons, List.mem_append] at hc
  rcases hc with hc | hc | hc | hc
  · subst hc; decide
  · refine asciiStr_iff.mp (asciiStr_joinComma (o.map stringifyField) ?_) c hc
    intro x hx
    simp only [List.mem_map] at hx
    obtain ⟨f, hf, hfx⟩ := hx
    exact hfx ▸ asciiStr_stringifyField f (wfObj_forall h f hf).1 (wfObj_forall h f hf).2
  · subst hc; decide
  · exact absurd hc (List.not_mem_nil c)

theorem strBytes_ascii : ∀ s : JSStr, asciiStr s = true → strBytes s = s.map Char.toNat
  | [], _ => rfl
  | c :: s, h => by
    have hc : c.toNat < 128 := asciiStr_iff.mp h c (List.mem_cons_self c s)
    have hs : asciiStr s = true := by
      rw [asciiStr_iff] at h ⊢
      exact fun d hd => h d (List.mem_cons_of_mem c hd)
    simp only [strBytes, List.map_cons, List.flatten_cons] at *
    rw [show utf8Bytes c = [c.toNat] by simp [utf8Bytes, hc]]
    simp only [List.cons_append, List.nil_append, List.cons.injEq, true_and]
    exact strBytes_ascii s hs

theorem bytesChars_map_toNat : ∀ s : JSStr, asciiStr s = true →
    bytesChars (s.map Char.toNat) = s
  | [], _ => rfl
  | c :: s, h => by
    have hc : c.toNat < 128 := asciiStr_iff.mp h c (List.mem_cons_self c s)
    have hs : asciiStr s = true := by
      rw [asciiStr_iff] at h ⊢
      exact fun d hd => h d (List.mem_cons_of_mem c hd)
    simp only [bytesChars, List.map_cons, List.map_map] at *
    rw [if_pos hc, Char.ofNat_toNat]
    simp only [List.cons.injEq, true_and]
    have := bytesChars_map_toNat s hs
    simpa [bytesChars] using this

theorem allBelow256_strBytes (s : JSStr) (h : asciiStr s = true) :
    allBelow 256 (strBytes s) := by
  rw [strBytes_ascii s h]
  intro b hb
  simp only [List.mem_map] at hb
  obtain ⟨c, hc, hcb⟩ := hb
  have := asciiStr_iff.mp h c hc
  omega

theorem decodeCursorRaw_encodeCursor (o : JObj) (hwf : wfObj o = true) :
    decodeCursorRaw (encodeCursor o) = Except.ok o := by
  have hascii := asciiStr_stringifyObj o hwf
  unfold decodeCursorRaw encodeCursor
  rw [decodeB64_encodeB64 _ (allBelow256_strBytes _ hascii),
    strBytes_ascii _ hascii, bytesChars_map_toNat _ hascii,
    parseJson_stringifyObj o (wfObj_forall hwf)]

theorem decodeCursor_encodeCursor (o : JObj) (hwf : wfObj o = true) :
    decodeCursor (encodeCursor o) = some o := by
  unfold decodeCursor
  rw [decodeCursorRaw_encodeCursor o hwf]

theorem encodeCursor_ne_nil (o : JObj) : encodeCursor o ≠ [] := by
  unfold encodeCursor
  apply encodeB64_ne_nil
  simp [strBytes, stringifyObj, utf8Bytes]

theorem ltSVal_irrefl : ∀ x : SVal, ltSVal x x = false
  | SVal.n a => by simp [ltSVal]
  | SVal.s a => by simp [ltSVal, lexLt_irrefl]

theorem ltSVal_asymm : ∀ {x y : SVal}, ltSVal x y = true → ltSVal y x = false
  | SVal.n a, SVal.n b, h => by
    simp only [ltSVal, decide_eq_true_eq] at h
    simp only [ltSVal, decide_eq_false_iff_not]
    omega
  | SVal.s a, SVal.s b, h => lexLt_asymm h
  | SVal.n _, SVal.s _, h => by simp [ltSVal] at h
  | SVal.s _, SVal.n _, h => by simp [ltSVal] at h

/-- Whether a sort value is numeric. -/
def svalIsNum : SVal → Bool
  | SVal.n _ => true
  | SVal.s _ => false

theorem sortVal_kind (f : Nat) (a b : Grpc.GUser) :
    svalIsNum (Grpc.sortVal f a) = svalIsNum (Grpc.sortVal f b) := by
  match f with
  | 0 => rfl
  | 1 => rfl
  | 2 => rfl
  | 3 => rfl
  | 4 => rfl
  | 5 => rfl
  | 6 => rfl
  | n + 7 => rfl

theorem ltSVal_eq_of_not {x y : SVal} (hk : svalIsNum x = svalIsNum y)
    (h1 : ltSVal x y = false) (h2 : ltSVal y x = false) : x = y := by
  cases x with
  | n a =>
    cases y with
    | n b =>
      simp only [ltSVal, decide_eq_false_iff_not] at h1 h2
      have : a = b := by omega
      rw [this]
    | s b => simp [svalIsNum] at hk
  | s a =>
    cases y with
    | n b => simp [svalIsNum] at hk
    | s b => rw [lexLt_eq_of_not h1 h2]

/-- C2: for every key tuple the engine can encode (a flat JSON object of
printable-ASCII strings and integers, e.g. `{id}` or `{sort_value, id}`),
decoding the encoded token returns exactly that tuple:
`decodeCursor(encodeCursor(k)) = k`. -/
theorem claim_C2_cursor_roundtrip (o : JObj) (h : wfObj o = true) :
    decodeCursor (encodeCursor o) = some o :=
  decodeCursor_encodeCursor o h

/-- C2 witness: the round trip evaluated on the payload shapes the engine
produces, `{id: 10}` and `{sort_value: "Engineering", id: 42}`. -/
theorem claim_C2_cursor_roundtrip_witness :
    decodeCursor (encodeCursor [(idKey, JPrim.num 10)]) =
      some [(idKey, JPrim.num 10)] ∧
    decodeCursor (encodeCursor
        [("sort_value".data, JPrim.str "Engineering".data), (idKey, JPrim.num 42)]) =
      some [("sort_value".data, JPrim.str "Engineering".data), (idKey, JPrim.num 42)] :=
  ⟨claim_C2_cursor_roundtrip _ (by decide), claim_C2_cursor_roundtrip _ (by decide)⟩

/-- C4: cursor decoding is a total function into a typed result: it returns
`none` (JS `null`, which the callers map to a client-facing 400) exactly
when the raw pipeline would have thrown (`JSON.parse` failure inside the
`try/catch`), never propagating the exception; in particular the hostile
token `"!!!not-base-valid!!!"` decodes to `none`. -/
theorem claim_C4_decode_never_throws :
    (∀ s : JSStr, decodeCursor s = none ↔
      decodeCursorRaw s = Except.error DecodeErr.malformed) ∧
    decodeCursor "!!!not-base-valid!!!".data = none := by
  constructor
  · intro s
    unfold decodeCursor
    cases h : decodeCursorRaw s with
    | ok o => simp
    | error e =>
      cases e
      simp
  · decide

/-- C6 counterexample: under the sort specification `FIRST_NAME ASC`, the
two distinct records at indices 0 and 5 of the gRPC mock database (ids 1
and 6, both named John) compare equal — the comparator has no identifier
tiebreaker, so the order is not strict on distinct records. -/
theorem claim_C6_counterexample :
    Grpc.jsSortCmp ⟨2, 1⟩ (Grpc.mkUser 0 0) (Grpc.mkUser 0 5) = 0 ∧
    Grpc.mkUser 0 0 ≠ Grpc.mkUser 0 5 := by
  constructor
  · decide
  · decide

/-- C6 amended: the Sort Engine's comparison is a total preorder, not a
strict total order: it is antisymmetric as a comparator
(`cmp(b,a) = -cmp(a,b)`), and it returns equal exactly when the configured
field's comparison values tie — there is no identifier tiebreaker, so two
distinct records with equal sort-field values compare equal. -/
theorem claim_C6_amended : ∀ (s : Grpc.GSort) (a b : Grpc.GUser),
    (Grpc.jsSortCmp s a b = 0 ↔ Grpc.sortVal s.field a = Grpc.sortVal s.field b) ∧
    Grpc.jsSortCmp s b a = - Grpc.jsSortCmp s a b := by
  intro s a b
  constructor
  · constructor
    · intro hc
      by_cases h1 : ltSVal (Grpc.sortVal s.field a) (Grpc.sortVal s.field b) = true
      · have h2 := ltSVal_asymm h1
        simp only [Grpc.jsSortCmp, h1, h2] at hc
        by_cases hd : s.order = 2 <;> simp [hd] at hc
      · by_cases h2 : ltSVal (Grpc.sortVal s.field b) (Grpc.sortVal s.field a) = true
        · simp only [Grpc.jsSortCmp, h2, Bool.not_eq_true] at hc
          simp only [Bool.not_eq_true] at h1
          simp only [h1] at hc
          by_cases hd : s.order = 2 <;> simp [hd] at hc
        · simp only [Bool.not_eq_true] at h1 h2
          exact ltSVal_eq_of_not (sortVal_kind s.field a b) h1 h2
    · intro hv
      simp only [Grpc.jsSortCmp, hv, ltSVal_irrefl]
      simp
  · by_cases h1 : ltSVal (Grpc.sortVal s.field a) (Grpc.sortVal s.field b) = true
    · have h2 := ltSVal_asymm h1
      simp only [Grpc.jsSortCmp, h1, h2]
      by_cases hd : s.order = 2 <;> simp [hd]
    · by_cases h2 : ltSVal (Grpc.sortVal s.field b) (Grpc.sortVal s.field a) = true
      · simp only [Bool.not_eq_true] at h1
        simp only [Grpc.jsSortCmp, h1, h2]
        by_cases hd : s.order = 2 <;> simp [hd]
      · simp only [Bool.not_eq_true] at h1 h2
        simp only [Grpc.jsSortCmp, h1, h2]
        simp

/-- C7 counterexample: the filter `{ or: [] }` (an `OR` combinator with
zero children) matches every record — the empty-OR branch is skipped by the
`filter.or.length > 0` guard — whereas the claim says it matches none: on a
one-record list the result is the whole list, not `[]`. -/
theorem claim_C7_counterexample :
    Gql.applyFilters [Gql.mkUser 0 0] (some Gql.emptyCombinatorFilter) =
      [Gql.mkUser 0 0] ∧
    [Gql.mkUser 0 0] ≠ ([] : List Gql.GqlUser) := by
  constructor
  · simp [Gql.applyFilters, Gql.applyFilter, Gql.emptyCombinatorFilter, optFilter]
  · simp

/-- C7 amended: `AND` with zero children matches every record, as claimed;
but `OR` with zero children also matches every record (the branch is
skipped, it is not the identity element "matches none"): applying the
filter `{ or: [], and: [] }` returns the input list unchanged. -/
theorem claim_C7_amended : ∀ l : List Gql.GqlUser,
    Gql.applyFilters l (some Gql.emptyCombinatorFilter) = l := by
  intro l
  simp [Gql.applyFilters, Gql.applyFilter, Gql.emptyCombinatorFilter, optFilter]

theorem condFilter_sublist {α : Type} (c : Bool) (p : α → Bool) (r : List α) :
    (condFilter c p r).Sublist r := by
  unfold condFilter
  by_cases h : c = true
  · rw [if_pos h]
    exact List.filter_sublist r
  · rw [if_neg h]

theorem optFilter_sublist {α β : Type} (x : Option β) (p : β → α → Bool) (r : List α) :
    (optFilter x p r).Sublist r := by
  cases x with
  | some v => exact List.filter_sublist r
  | none => exact List.Sublist.refl r

theorem grpc_applyFilters_sublist (l : List Grpc.GUser) (f : Option Grpc.GFilter) :
    (Grpc.applyFilters l f).Sublist l := by
  cases f with
  | none => exact List.Sublist.refl l
  | some f =>
    simp only [Grpc.applyFilters]
    refine (condFilter_sublist _ _ _).trans ?_
    refine (condFilter_sublist _ _ _).trans ?_
    refine (condFilter_sublist _ _ _).trans ?_
    refine (optFilter_sublist _ _ _).trans ?_
    refine (optFilter_sublist _ _ _).trans ?_
    refine (optFilter_sublist _ _ _).trans ?_
    refine (optFilter_sublist _ _ _).trans ?_
    refine (optFilter_sublist _ _ _).trans ?_
    refine (condFilter_sublist _ _ _).trans ?_
    refine (condFilter_sublist _ _ _).trans ?_
    refine (condFilter_sublist _ _ _).trans ?_
    refine (condFilter_sublist _ _ _).trans ?_
    exact condFilter_sublist _ _ _

theorem grpc_applySorting_perm (l : List Grpc.GUser) (s : Option Grpc.GSort) :
    (Grpc.applySorting l s).Perm l := by
  cases s with
  | none => exact List.Perm.refl l
  | some s =>
    simp only [Grpc.applySorting]
    by_cases h : 1 ≤ s.field ∧ s.field ≤ 6
    · rw [if_pos h]
      exact List.perm_insertionSort _ l
    · rw [if_neg h]

theorem grpc_pipeline_ids_nodup (db : List Grpc.GUser) (f : Option Grpc.GFilter)
    (s : Option Grpc.GSort) (h : (db.map Grpc.GUser.id).Nodup) :
    ((Grpc.applySorting (Grpc.applyFilters db f) s).map Grpc.GUser.id).Nodup := by
  have h1 : ((Grpc.applyFilters db f).map Grpc.GUser.id).Nodup :=
    ((grpc_applyFilters_sublist db f).map Grpc.GUser.id).nodup h
  exact (((grpc_applySorting_perm (Grpc.applyFilters db f) s).map
    Grpc.GUser.id).symm).nodup h1

theorem grpc_findIdx?_nodup_ids : ∀ (S : List Grpc.GUser),
    ((S.map Grpc.GUser.id).Nodup) → ∀ (k : Nat) (hk : k < S.length),
    S.findIdx? (fun u => Grpc.userIdMatches u (JPrim.num ((S.get ⟨k, hk⟩).id : Int))) =
      some k
  | [], _, k, hk => by simp at hk
  | a :: S, h, 0, hk => by
    rw [List.findIdx?_cons, if_pos (by simp [Grpc.userIdMatches])]
  | a :: S, h, k + 1, hk => by
    have hnd : (S.map Grpc.GUser.id).Nodup := by
      simp only [List.map_cons, List.nodup_cons] at h
      exact h.2
    have hmem : a.id ∉ S.map Grpc.GUser.id := by
      simp only [List.map_cons, List.nodup_cons] at h
      exact h.1
    have htgt : ((a :: S).get ⟨k + 1, hk⟩) = S.get ⟨k, by simpa using hk⟩ := rfl
    rw [htgt, List.findIdx?_cons, if_neg ?hne, List.findIdx?_succ,
      grpc_findIdx?_nodup_ids S hnd k (by simpa using hk)]
    · rfl
    case hne =>
      simp only [Grpc.userIdMatches, decide_eq_true_eq, Int.natCast_inj]
      intro hcon
      exact hmem (hcon ▸ List.mem_map_of_mem Grpc.GUser.id
        (List.get_mem S k _))

theorem grpcLimit_pos (ps : Int) : 1 ≤ Grpc.grpcLimit ps := by
  unfold Grpc.grpcLimit
  omega

theorem cursorPageCore_users (S : List Grpc.GUser) (limit : Nat) (tok : JSStr) :
    (Grpc.cursorPageCore S limit tok).users =
      (S.drop (Grpc.cursorStart S tok)).take limit := by
  simp only [Grpc.cursorPageCore]
  by_cases h : limit < ((S.drop (Grpc.cursorStart S tok)).take (limit + 1)).length
  · rw [if_pos (by simpa using h), List.take_take]
    congr 1
    omega
  · rw [if_neg (by simpa using h)]
    have h1 : (S.drop (Grpc.cursorStart S tok)).length ≤ limit := by
      simp only [List.length_take, List.length_drop] at h
      simp only [List.length_drop]
      omega
    rw [List.take_of_length_le (le_trans h1 (Nat.le_succ _)),
      List.take_of_length_le h1]

theorem cursorPageCore_hasMore (S : List Grpc.GUser) (limit : Nat) (tok : JSStr) :
    (Grpc.cursorPageCore S limit tok).has_more =
      decide (Grpc.cursorStart S tok + limit < S.length) := by
  simp only [Grpc.cursorPageCore]
  rw [decide_eq_decide]
  simp only [List.length_take, List.length_drop]
  omega

theorem wfObj_idNum (n : Int) : wfObj [(idKey, JPrim.num n)] = true := by
  simp only [wfObj, List.all_cons, List.all_nil, wfPrim, Bool.and_true]
  decide

theorem jGet_idKey (p : JPrim) : jGet [(idKey, p)] idKey = some p := by
  simp [jGet, List.find?]

theorem cursorPageCore_nextTok (S : List Grpc.GUser) (limit : Nat) (tok : JSStr)
    (hlim : 1 ≤ limit) (hmore : Grpc.cursorStart S tok + limit < S.length) :
    (Grpc.cursorPageCore S limit tok).next_page_token =
      encodeCursor [(idKey, JPrim.num
        ((S.get ⟨Grpc.cursorStart S tok + limit - 1, by omega⟩).id : Int))] := by
  simp only [Grpc.cursorPageCore]
  have hcond : decide
      (limit < ((S.drop (Grpc.cursorStart S tok)).take (limit + 1)).length) = true := by
    simp only [decide_eq_true_eq, List.length_take, List.length_drop]
    omega
  rw [if_pos hcond, if_pos hcond, List.take_take]
  have hmin : min limit (limit + 1) = limit := by omega
  rw [hmin]
  have hlastlen : ((S.drop (Grpc.cursorStart S tok)).take limit).length = limit := by
    simp only [List.length_take, List.length_drop]
    omega
  rw [List.getLast?_eq_getElem?, hlastlen,
    List.getElem?_take_of_lt (by omega : limit - 1 < limit), List.getElem?_drop]
  have hidx : Grpc.cursorStart S tok + (limit - 1) =
      Grpc.cursorStart S tok + limit - 1 := by omega
  rw [hidx, List.getElem?_eq_getElem (by omega)]
  rfl

theorem grpc_cursorStart_encodeId (S : List Grpc.GUser)
    (h : (S.map Grpc.GUser.id).Nodup) (k : Nat) (hk : k < S.length) :
    Grpc.cursorStart S (encodeCursor [(idKey, JPrim.num ((S.get ⟨k, hk⟩).id : Int))]) =
      k + 1 := by
  unfold Grpc.cursorStart
  rw [if_pos (encodeCursor_ne_nil _)]
  simp only [decodeCursor_encodeCursor _ (wfObj_idNum _), jGet_idKey,
    grpc_findIdx?_nodup_ids S h k hk]

theorem collectCore_eq_drop (S : List Grpc.GUser) (limit : Nat)
    (hnd : (S.map Grpc.GUser.id).Nodup) (hlim : 1 ≤ limit) :
    ∀ (fuel : Nat) (tok : JSStr),
    S.length - Grpc.cursorStart S tok ≤ fuel * limit →
    Grpc.collectCore S limit fuel tok = S.drop (Grpc.cursorStart S tok) := by
  intro fuel
  induction fuel with
  | zero =>
    intro tok hle
    rw [Nat.zero_mul] at hle
    simp only [Grpc.collectCore]
    rw [List.drop_eq_nil_of_le (by omega)]
  | succ fuel ih =>
    intro tok hle
    rw [Nat.succ_mul] at hle
    simp only [Grpc.collectCore]
    by_cases hmore : Grpc.cursorStart S tok + limit < S.length
    · have hhm : (Grpc.cursorPageCore S limit tok).has_more = true := by
        rw [cursorPageCore_hasMore]
        simpa using hmore
      rw [if_pos hhm, cursorPageCore_users,
        cursorPageCore_nextTok S limit tok hlim hmore]
      have hcs := grpc_cursorStart_encodeId S hnd
        (Grpc.cursorStart S tok + limit - 1) (by omega)
      rw [ih _ (by rw [hcs]; omega), hcs]
      have heq : Grpc.cursorStart S tok + limit - 1 + 1 =
          Grpc.cursorStart S tok + limit := by omega
      rw [heq]
      conv_rhs => rw [← List.take_append_drop limit (S.drop (Grpc.cursorStart S tok))]
      rw [List.drop_drop]
    · have hhm : (Grpc.cursorPageCore S limit tok).has_more = false := by
        rw [cursorPageCore_hasMore]
        simpa using hmore
      rw [if_neg (by simp [hhm]), cursorPageCore_users,
        List.take_of_length_le (by simp only [List.length_drop]; omega)]

theorem collectPages_eq_collectCore (db : List Grpc.GUser) (f : Option Grpc.GFilter)
    (s : Option Grpc.GSort) (ps : Int) :
    ∀ (fuel : Nat) (tok : JSStr),
    Grpc.collectPages db f s ps fuel tok =
      Grpc.collectCore (Grpc.applySorting (Grpc.applyFilters db f) s)
        (Grpc.grpcLimit ps) fuel tok := by
  intro fuel
  induction fuel with
  | zero => intro tok; rfl
  | succ fuel ih =>
    intro tok
    simp only [Grpc.collectPages, Grpc.collectCore, Grpc.listUsersCursor, ih]

/-- C1: over a static record set whose ids are distinct, and for every
filter, sort and requested page size, the concatenation of all forward
cursor pages of the gRPC `ListUsersCursor` handler — starting with no
cursor and repeatedly passing each response's `next_page_token` while
`has_more` holds — equals the full filtered-and-sorted record sequence,
with no record duplicated and none omitted. -/
theorem claim_C1_pages_concat (db : List Grpc.GUser) (f : Option Grpc.GFilter)
    (s : Option Grpc.GSort) (ps : Int) (hnd : (db.map Grpc.GUser.id).Nodup) :
    Grpc.collectPages db f s ps
        ((Grpc.applySorting (Grpc.applyFilters db f) s).length + 1) [] =
      Grpc.applySorting (Grpc.applyFilters db f) s := by
  rw [collectPages_eq_collectCore]
  have h0 : Grpc.cursorStart (Grpc.applySorting (Grpc.applyFilters db f) s) [] = 0 := by
    simp [Grpc.cursorStart]
  have hle : (Grpc.applySorting (Grpc.applyFilters db f) s).length -
      Grpc.cursorStart (Grpc.applySorting (Grpc.applyFilters db f) s) [] ≤
      ((Grpc.applySorting (Grpc.applyFilters db f) s).length + 1) *
        Grpc.grpcLimit ps := by
    have h1 := grpcLimit_pos ps
    have h2 : ((Grpc.applySorting (Grpc.applyFilters db f) s).length + 1) * 1 ≤
        ((Grpc.applySorting (Grpc.applyFilters db f) s).length + 1) *
          Grpc.grpcLimit ps := Nat.mul_le_mul_left _ h1
    omega
  rw [collectCore_eq_drop _ _ (grpc_pipeline_ids_nodup db f s hnd)
    (grpcLimit_pos ps) _ _ hle, h0, List.drop_zero]

/-- C1 witness: three records, page size 2: two pages are concatenated and
reproduce the database. -/
theorem claim_C1_pages_concat_witness :
    Grpc.collectPages [Grpc.mkUser 0 0, Grpc.mkUser 0 1, Grpc.mkUser 0 2]
      none none 2 4 [] =
      [Grpc.mkUser 0 0, Grpc.mkUser 0 1, Grpc.mkUser 0 2] := by
  have h := claim_C1_pages_concat [Grpc.mkUser 0 0, Grpc.mkUser 0 1, Grpc.mkUser 0 2]
    none none 2 (by decide)
  simpa [Grpc.applySorting, Grpc.applyFilters] using h

theorem cursorPageCore_token_spec (S : List Grpc.GUser) (limit : Nat) (tok : JSStr) :
    ((Grpc.cursorPageCore S limit tok).next_page_token ≠ [] ↔
      (Grpc.cursorPageCore S limit tok).has_more = true ∧
      (Grpc.cursorPageCore S limit tok).users ≠ []) ∧
    ((Grpc.cursorPageCore S limit tok).next_page_token ≠ [] →
      ∃ u, (Grpc.cursorPageCore S limit tok).users.getLast? = some u ∧
        decodeCursor (Grpc.cursorPageCore S limit tok).next_page_token =
          some [(idKey, JPrim.num (u.id : Int))]) := by
  simp only [Grpc.cursorPageCore]
  by_cases hm : decide (limit <
      ((S.drop (Grpc.cursorStart S tok)).take (limit + 1)).length) = true
  · rw [if_pos hm, if_pos hm]
    simp only [hm, true_and]
    cases hl : ((S.drop (Grpc.cursorStart S tok)).take (limit + 1)).take limit
        |>.getLast? with
    | none =>
      have hnil := List.getLast?_eq_none_iff.mp hl
      rw [hnil]
      simp
    | some u =>
      have hne : ((S.drop (Grpc.cursorStart S tok)).take (limit + 1)).take limit ≠ [] := by
        intro hcon
        rw [hcon] at hl
        simp at hl
      constructor
      · simp only [ne_eq, encodeCursor_ne_nil, not_false_eq_true, true_iff]
        exact hne
      · intro _
        exact ⟨u, rfl, decodeCursor_encodeCursor _ (wfObj_idNum _)⟩
  · rw [if_neg hm, if_neg hm]
    simp only [Bool.not_eq_true] at hm
    simp only [hm]
    constructor
    · simp
    · intro hcon
      exact absurd rfl hcon

theorem scoredPageCore_token_spec (S : List Grpc.ScoredUser) (limit : Nat) (tok : JSStr) :
    ((Grpc.scoredPageCore S limit tok).next_page_token ≠ [] ↔
      (Grpc.scoredPageCore S limit tok).has_more = true ∧
      (Grpc.scoredPageCore S limit tok).results ≠ []) ∧
    ((Grpc.scoredPageCore S limit tok).next_page_token ≠ [] →
      ∃ r, (Grpc.scoredPageCore S limit tok).results.getLast? = some r ∧
        decodeCursor (Grpc.scoredPageCore S limit tok).next_page_token =
          some [(idKey, JPrim.num (r.user.id : Int))]) := by
  simp only [Grpc.scoredPageCore]
  by_cases hm : decide (limit <
      ((S.drop (Grpc.scoredCursorStart S tok)).take (limit + 1)).length) = true
  · rw [if_pos hm, if_pos hm]
    simp only [hm, true_and]
    cases hl : ((S.drop (Grpc.scoredCursorStart S tok)).take (limit + 1)).take limit
        |>.getLast? with
    | none =>
      have hnil := List.getLast?_eq_none_iff.mp hl
      rw [hnil]
      simp
    | some r =>
      have hne : ((S.drop (Grpc.scoredCursorStart S tok)).take (limit + 1)).take limit ≠ [] := by
        intro hcon
        rw [hcon] at hl
        simp at hl
      constructor
      · simp only [ne_eq, encodeCursor_ne_nil, not_false_eq_true, true_iff]
        exact hne
      · intro _
        exact ⟨r, rfl, decodeCursor_encodeCursor _ (wfObj_idNum _)⟩
  · rw [if_neg hm, if_neg hm]
    simp only [Bool.not_eq_true] at hm
    simp only [hm]
    constructor
    · simp
    · intro hcon
      exact absurd rfl hcon

/-- C10: in the gRPC cursor-mode responses (`ListUsers` of the standalone
server, `ListUsersCursor`, `SearchUsers`), `next_page_token` is nonempty
exactly when `has_more` is true and at least one record was returned; and a
nonempty token decodes to the key tuple `{id}` of the last returned
record. -/
theorem claim_C10_next_token (db : List Grpc.GUser) (f : Option Grpc.GFilter)
    (s : Option Grpc.GSort) (ps : Int) (tok : JSStr) (q : JSStr) :
    (((Grpc.listUsersCursor db ps tok f s).next_page_token ≠ [] ↔
        (Grpc.listUsersCursor db ps tok f s).has_more = true ∧
        (Grpc.listUsersCursor db ps tok f s).users ≠ []) ∧
      ((Grpc.listUsersCursor db ps tok f s).next_page_token ≠ [] →
        ∃ u, (Grpc.listUsersCursor db ps tok f s).users.getLast? = some u ∧
          decodeCursor (Grpc.listUsersCursor db ps tok f s).next_page_token =
            some [(idKey, JPrim.num (u.id : Int))])) ∧
    (((Rpc.listUsers db ps tok).next_page_token ≠ [] ↔
        (Rpc.listUsers db ps tok).has_more = true ∧
        (Rpc.listUsers db ps tok).users ≠ []) ∧
      ((Rpc.listUsers db ps tok).next_page_token ≠ [] →
        ∃ u, (Rpc.listUsers db ps tok).users.getLast? = some u ∧
          decodeCursor (Rpc.listUsers db ps tok).next_page_token =
            some [(idKey, JPrim.num (u.id : Int))])) ∧
    (((Grpc.searchUsers db q f ps tok s).next_page_token ≠ [] ↔
        (Grpc.searchUsers db q f ps tok s).has_more = true ∧
        (Grpc.searchUsers db q f ps tok s).results ≠ []) ∧
      ((Grpc.searchUsers db q f ps tok s).next_page_token ≠ [] →
        ∃ r, (Grpc.searchUsers db q f ps tok s).results.getLast? = some r ∧
          decodeCursor (Grpc.searchUsers db q f ps tok s).next_page_token =
            some [(idKey, JPrim.num (r.user.id : Int))])) := by
  refine ⟨?_, ?_, ?_⟩
  · simp only [Grpc.listUsersCursor]
    exact cursorPageCore_token_spec _ _ _
  · simp only [Rpc.listUsers]
    exact cursorPageCore_token_spec _ _ _
  · simp only [Grpc.searchUsers]
    exact scoredPageCore_token_spec _ _ _

/-- C10 witness: three records, page size 2, first page: the token is
nonempty and decodes to the id of the last returned record. -/
theorem claim_C10_next_token_witness :
    (Grpc.listUsersCursor [Grpc.mkUser 0 0, Grpc.mkUser 0 1, Grpc.mkUser 0 2]
        2 [] none none).next_page_token ≠ [] ∧
    (∃ u, (Grpc.listUsersCursor [Grpc.mkUser 0 0, Grpc.mkUser 0 1, Grpc.mkUser 0 2]
        2 [] none none).users.getLast? = some u ∧
      decodeCursor (Grpc.listUsersCursor [Grpc.mkUser 0 0, Grpc.mkUser 0 1,
        Grpc.mkUser 0 2] 2 [] none none).next_page_token =
        some [(idKey, JPrim.num (u.id : Int))]) := by
  have h := claim_C10_next_token [Grpc.mkUser 0 0, Grpc.mkUser 0 1, Grpc.mkUser 0 2]
    none none 2 [] []
  have htok := h.1.1.mpr ⟨by decide, by decide⟩
  exact ⟨htok, h.1.2 htok⟩

theorem grpc_pipeline_mem {db : List Grpc.GUser} {f : Option Grpc.GFilter}
    {s : Option Grpc.GSort} {u : Grpc.GUser}
    (hu : u ∈ Grpc.applySorting (Grpc.applyFilters db f) s) : u ∈ db :=
  (grpc_applyFilters_sublist db f).subset
    ((grpc_applySorting_perm (Grpc.applyFilters db f) s).mem_iff.mp hu)

theorem rankedResults_user_mem {fl : List Grpc.GUser} {q : JSStr}
    {r : Grpc.ScoredUser} (hr : r ∈ Grpc.rankedResults fl q) : r.user ∈ fl := by
  unfold Grpc.rankedResults at hr
  by_cases hq : q ≠ []
  · rw [if_pos hq] at hr
    have h1 := (List.perm_insertionSort _ _).mem_iff.mp hr
    have h2 := List.mem_of_mem_filter h1
    obtain ⟨u, hu, hru⟩ := List.mem_map.mp h2
    rw [← hru]
    exact hu
  · rw [if_neg hq] at hr
    obtain ⟨u, hu, hru⟩ := List.mem_map.mp hr
    rw [← hru]
    exact hu

theorem searchResorted_mem {sr : List Grpc.ScoredUser} {su : List Grpc.GUser}
    {r : Grpc.ScoredUser} (hr : r ∈ Grpc.searchResorted sr su) : r ∈ sr := by
  unfold Grpc.searchResorted at hr
  obtain ⟨u, _, hfind⟩ := List.mem_filterMap.mp hr
  exact List.mem_of_find?_eq_some hfind

theorem scoredPageCore_results (S : List Grpc.ScoredUser) (limit : Nat) (tok : JSStr) :
    (Grpc.scoredPageCore S limit tok).results =
      (S.drop (Grpc.scoredCursorStart S tok)).take limit := by
  simp only [Grpc.scoredPageCore]
  by_cases h : limit < ((S.drop (Grpc.scoredCursorStart S tok)).take (limit + 1)).length
  · rw [if_pos (by simpa using h), List.take_take]
    congr 1
    omega
  · rw [if_neg (by simpa using h)]
    have h1 : (S.drop (Grpc.scoredCursorStart S tok)).length ≤ limit := by
      simp only [List.length_take, List.length_drop] at h
      simp only [List.length_drop]
      omega
    rw [List.take_of_length_le (le_trans h1 (Nat.le_succ _)),
      List.take_of_length_le h1]

/-- C9: no pagination call mutates the input collection or its records: in
this pure embedding of the handlers, every record of every offset page,
cursor page, streamed sequence and search result is (structurally equal
to) a record of the input database — filtering and sorting only copy and
rearrange. -/
theorem claim_C9_frame (db : List Grpc.GUser) (f : Option Grpc.GFilter)
    (s : Option Grpc.GSort) (ps pn : Int) (tok : JSStr) (limit : Nat) (q : JSStr) :
    (∀ u ∈ (Grpc.listUsersOffset db ps pn f s).users, u ∈ db) ∧
    (∀ u ∈ (Grpc.listUsersCursor db ps tok f s).users, u ∈ db) ∧
    (∀ u ∈ Grpc.streamUsers db f s limit, u ∈ db) ∧
    (∀ r ∈ (Grpc.searchUsers db q f ps tok s).results, r.user ∈ db) := by
  refine ⟨?_, ?_, ?_, ?_⟩
  · intro u hu
    simp only [Grpc.listUsersOffset] at hu
    exact grpc_pipeline_mem (List.mem_of_mem_drop (List.mem_of_mem_take hu))
  · intro u hu
    simp only [Grpc.listUsersCursor, cursorPageCore_users] at hu
    exact grpc_pipeline_mem (List.mem_of_mem_drop (List.mem_of_mem_take hu))
  · intro u hu
    simp only [Grpc.streamUsers] at hu
    split at hu
    · exact grpc_pipeline_mem (List.mem_of_mem_take hu)
    · exact grpc_pipeline_mem hu
  · intro r hr
    simp only [Grpc.searchUsers, scoredPageCore_results] at hr
    have hr2 := List.mem_of_mem_drop (List.mem_of_mem_take hr)
    have hr3 : r ∈ Grpc.rankedResults (Grpc.applyFilters db f) q := by
      cases s with
      | none => exact hr2
      | some s0 =>
        simp only at hr2
        by_cases hf : s0.field ≠ 0
        · rw [if_pos hf] at hr2
          exact searchResorted_mem hr2
        · rw [if_neg hf] at hr2
          exact hr2
    exact (grpc_applyFilters_sublist db f).subset (rankedResults_user_mem hr3)

/-- C9 witness: a record returned on the first cursor page of a concrete
three-record database is a record of that database. -/
theorem claim_C9_frame_witness :
    Grpc.mkUser 0 0 ∈ [Grpc.mkUser 0 0, Grpc.mkUser 0 1, Grpc.mkUser 0 2] :=
  (claim_C9_frame [Grpc.mkUser 0 0, Grpc.mkUser 0 1, Grpc.mkUser 0 2]
    none none 2 1 [] 0 []).2.1 (Grpc.mkUser 0 0) (by decide)

/-- C8 counterexample: equal-score ties are NOT broken by an identifier
tiebreaker.  For the record list [user 6, user 1] (both named John Doe) and
query "john", both records score 40 + 20 = 60, and the returned ranking is
[6, 1] — the stable sort preserves the input order — whereas an ascending
identifier tiebreaker would return [1, 6]. -/
theorem claim_C8_counterexample :
    ((Grpc.searchUsers [Grpc.mkUser 0 5, Grpc.mkUser 0 0] "john".data none
        20 [] none).results.map (fun r => r.user.id)) = [6, 1] ∧
    Grpc.calculateSearchScore (Grpc.mkUser 0 5) "john".data =
      Grpc.calculateSearchScore (Grpc.mkUser 0 0) "john".data ∧
    ([6, 1] : List Nat) ≠ [1, 6] := by
  refine ⟨by decide, by decide, by decide⟩

/-- C8 amended: in the search variant, for every record set, filter and
nonempty query: every returned entry carries its weighted-constant score
(email exact 100 / substring 30, full-name exact 80 / substring 40, first-
and last-name starts-with 20 each) and a zero-score record is excluded
while every positive-score record is kept (the ranked list is a
permutation of the scored-and-filtered input); the list is ordered by
score descending; and equal-score ties keep the *input order* of the
record list (stable sort) — there is no identifier tiebreaker, the ids
only appear ascending because the mock databases are materialized in
ascending id order.  The response page is a prefix window of this ranked
list. -/
theorem claim_C8_amended (db : List Grpc.GUser) (q : JSStr) (f : Option Grpc.GFilter)
    (ps : Int) (hq : q ≠ []) :
    (∀ r ∈ Grpc.rankedResults (Grpc.applyFilters db f) q,
        r.score = Grpc.calculateSearchScore r.user q ∧ 0 < r.score) ∧
    (Grpc.rankedResults (Grpc.applyFilters db f) q).Perm
      (((Grpc.applyFilters db f).map
          (fun u => Grpc.ScoredUser.mk u (Grpc.calculateSearchScore u q))).filter
        (fun r => 0 < r.score)) ∧
    (Grpc.rankedResults (Grpc.applyFilters db f) q).Pairwise
      (fun a b => b.score ≤ a.score) ∧
    (∀ a b : Grpc.ScoredUser,
      ([a, b]).Sublist (((Grpc.applyFilters db f).map
          (fun u => Grpc.ScoredUser.mk u (Grpc.calculateSearchScore u q))).filter
        (fun r => 0 < r.score)) →
      a.score = b.score →
      ([a, b]).Sublist (Grpc.rankedResults (Grpc.applyFilters db f) q)) ∧
    (Grpc.searchUsers db q f ps [] none).results =
      (Grpc.rankedResults (Grpc.applyFilters db f) q).take (Grpc.grpcLimit ps) := by
  have hperm : (Grpc.rankedResults (Grpc.applyFilters db f) q).Perm
      (((Grpc.applyFilters db f).map
          (fun u => Grpc.ScoredUser.mk u (Grpc.calculateSearchScore u q))).filter
        (fun r => 0 < r.score)) := by
    unfold Grpc.rankedResults
    rw [if_pos hq]
    exact List.perm_insertionSort _ _
  refine ⟨?_, hperm, ?_, ?_, ?_⟩
  · intro r hr
    have h1 := hperm.mem_iff.mp hr
    have h2 := List.mem_of_mem_filter h1
    have h3 := List.of_mem_filter h1
    obtain ⟨u, _, hru⟩ := List.mem_map.mp h2
    constructor
    · rw [← hru]
    · simpa using h3
  · haveI : IsTotal Grpc.ScoredUser
        (fun a b => ((b.score : Int) - (a.score : Int) ≤ 0)) :=
      ⟨fun a b => by omega⟩
    haveI : IsTrans Grpc.ScoredUser
        (fun a b => ((b.score : Int) - (a.score : Int) ≤ 0)) :=
      ⟨fun a b c h1 h2 => by omega⟩
    have hs := List.sorted_insertionSort
      (fun a b : Grpc.ScoredUser => ((b.score : Int) - (a.score : Int) ≤ 0))
      (((Grpc.applyFilters db f).map
          (fun u => Grpc.ScoredUser.mk u (Grpc.calculateSearchScore u q))).filter
        (fun r => 0 < r.score))
    have heq : Grpc.rankedResults (Grpc.applyFilters db f) q =
        (((Grpc.applyFilters db f).map
            (fun u => Grpc.ScoredUser.mk u (Grpc.calculateSearchScore u q))).filter
          (fun r => 0 < r.score)).insertionSort
          (fun a b => ((b.score : Int) - (a.score : Int) ≤ 0)) := by
      unfold Grpc.rankedResults
      rw [if_pos hq]
    rw [heq]
    exact hs.imp (fun hab => by omega)
  · intro a b hsub hab
    have heq : Grpc.rankedResults (Grpc.applyFilters db f) q =
        (((Grpc.applyFilters db f).map
            (fun u => Grpc.ScoredUser.mk u (Grpc.calculateSearchScore u q))).filter
          (fun r => 0 < r.score)).insertionSort
          (fun a b => ((b.score : Int) - (a.score : Int) ≤ 0)) := by
      unfold Grpc.rankedResults
      rw [if_pos hq]
    rw [heq]
    exact List.pair_sublist_insertionSort (by omega) hsub
  · simp only [Grpc.searchUsers, scoredPageCore_results]
    have h0 : Grpc.scoredCursorStart (Grpc.rankedResults (Grpc.applyFilters db f) q)
        [] = 0 := by
      simp [Grpc.scoredCursorStart]
    rw [h0, List.drop_zero]

/-- C8 amended witness: the counterexample database evaluated through the
amended statement — each returned entry scores 60 and the ranked list is
sorted by score. -/
theorem claim_C8_amended_witness :
    (∀ r ∈ Grpc.rankedResults
        (Grpc.applyFilters [Grpc.mkUser 0 5, Grpc.mkUser 0 0] none) "john".data,
      r.score = Grpc.calculateSearchScore r.user "john".data ∧ 0 < r.score) ∧
    (Grpc.rankedResults (Grpc.applyFilters [Grpc.mkUser 0 5, Grpc.mkUser 0 0] none)
        "john".data).Pairwise (fun a b => b.score ≤ a.score) := by
  have h := claim_C8_amended [Grpc.mkUser 0 5, Grpc.mkUser 0 0] "john".data
    none 20 (by decide)
  exact ⟨h.1, h.2.2.1⟩

/-! ## C3: cursor target missing from the sequence -/

/-- When `findIdx?` locates a first index satisfying `p`, dropping to that
index drops exactly the longest all-not-`p` prefix. -/
theorem drop_of_findIdx_some {α : Type} {p : α → Bool} :
    ∀ {l : List α} {i : Nat}, l.findIdx? p = some i →
      l.drop i = l.dropWhile (fun a => ! p a)
  | [], i, h => by simp [List.findIdx?] at h
  | a :: t, i, h => by
    rw [List.findIdx?_cons] at h
    by_cases hp : p a
    · rw [if_pos hp] at h
      cases h
      rw [List.drop_zero, List.dropWhile_cons, if_neg (by simp [hp])]
    · rw [if_neg hp, List.findIdx?_succ] at h
      cases hf : t.findIdx? p with
      | none => rw [hf] at h; simp at h
      | some j =>
        rw [hf] at h
        simp only [Option.map_some'] at h
        cases h
        rw [List.drop_succ_cons, List.dropWhile_cons, if_pos (by simp [hp])]
        exact drop_of_findIdx_some hf

/-- When no index satisfies `p`, the all-not-`p` prefix is the whole list. -/
theorem dropWhile_of_findIdx_none {α : Type} {p : α → Bool} :
    ∀ {l : List α}, l.findIdx? p = none → l.dropWhile (fun a => ! p a) = []
  | [], _ => rfl
  | a :: t, h => by
    rw [List.findIdx?_cons] at h
    by_cases hp : p a
    · rw [if_pos hp] at h
      exact absurd h (by simp)
    · rw [if_neg hp, List.findIdx?_succ] at h
      rw [List.dropWhile_cons, if_pos (by simp [hp])]
      exact dropWhile_of_findIdx_none (by simpa using h)

/-- The record window of the REST cursor endpoints is a take of a drop. -/
theorem curWindow_fst (db : List Rest.RUser) (limit start : Nat) :
    (Rest.curWindow db limit start).1 = (db.drop start).take limit := by
  simp only [Rest.curWindow]
  by_cases h : limit < ((db.drop start).take (limit + 1)).length
  · rw [if_pos (by simpa using h), List.take_take]
    congr 1
    omega
  · rw [if_neg (by simpa using h)]
    have h1 : (db.drop start).length ≤ limit := by
      simp only [List.length_take, List.length_drop] at h
      simp only [List.length_drop]
      omega
    rw [List.take_of_length_le (le_trans h1 (Nat.le_succ _)),
      List.take_of_length_le h1]

/-- C3 counterexample: on the 150-record mock database, the REST `/cursor`
endpoint answers a well-formed, decodable token whose id (999) matches no
record with the 400 error `CURSOR_NOT_FOUND`, not with a graceful page. -/
theorem claim_C3_counterexample :
    Rest.usersCursor (Rest.users (fun _ => []) 0) none
        (some (encodeCursor [(idKey, JPrim.num 999)])) =
      Except.error Rest.RestErr.cursorNotFound := by
  rfl

/-- C3: CORRECTED. The claim holds only for the compound-key `cursor-sorted`
endpoint: for every decodable payload it never errors, and the returned page
starts at the first record of the sorted sequence whose compound key
strictly succeeds the decoded tuple (part 1).  The plain REST `/cursor`
endpoint instead returns a 400 `CURSOR_NOT_FOUND` whenever the decoded id
matches no record (part 2, refuted concretely by `claim_C3_counterexample`),
and the GraphQL `after` and gRPC `page_token` lookups silently restart from
position 0 when the referenced record is absent (parts 3 and 4). -/
theorem claim_C3_amended :
    (∀ (db : List Rest.RUser) (limitQ : Option Int) (payload : JObj)
       (sortBy : Rest.RField) (sortOrder : JSStr), wfObj payload = true →
       (Rest.cursorSorted db limitQ (some (encodeCursor payload)) sortBy
           sortOrder).toOption.map Rest.CSResp.data =
         some (((db.insertionSort
             (fun a b => Rest.csCmp sortBy sortOrder a b ≤ 0)).dropWhile
             (fun u => ! Rest.csSucc sortBy sortOrder payload u)).take
           (Rest.restLimit limitQ))) ∧
    (∀ (db : List Rest.RUser) (limitQ : Option Int) (payload : JObj),
       wfObj payload = true →
       db.findIdx? (fun u => Rest.ridMatches u (jGet payload idKey)) = none →
       Rest.usersCursor db limitQ (some (encodeCursor payload)) =
         Except.error Rest.RestErr.cursorNotFound) ∧
    (∀ (S : List Grpc.GUser) (payload : JObj), wfObj payload = true →
       (∀ pid, jGet payload idKey = some pid →
         S.findIdx? (fun u => Grpc.userIdMatches u pid) = none) →
       Grpc.cursorStart S (encodeCursor payload) = 0) ∧
    (∀ (S : List Gql.GqlUser) (payload : JObj), wfObj payload = true →
       (∀ pid, jGet payload idKey = some pid →
         S.findIdx? (fun u => Gql.gqlIdMatches u pid) = none) →
       Gql.afterIndex S (encodeCursor payload) = 0) := by
  refine ⟨?_, ?_, ?_, ?_⟩
  · intro db limitQ payload sortBy sortOrder hwf
    simp only [Rest.cursorSorted, decodeCursor_encodeCursor _ hwf]
    cases hf : (db.insertionSort
        (fun a b => Rest.csCmp sortBy sortOrder a b ≤ 0)).findIdx?
        (Rest.csSucc sortBy sortOrder payload) with
    | some i =>
      simp only [Except.toOption, Option.map_some', Option.some.injEq]
      rw [curWindow_fst, drop_of_findIdx_some hf]
    | none =>
      simp only [Except.toOption, Option.map_some', Option.some.injEq]
      rw [curWindow_fst, List.drop_length, dropWhile_of_findIdx_none hf,
        List.take_nil]
  · intro db limitQ payload hwf hnone
    simp only [Rest.usersCursor, decodeCursor_encodeCursor _ hwf, hnone]
  · intro S payload hwf hnone
    unfold Grpc.cursorStart
    rw [if_pos (encodeCursor_ne_nil _)]
    simp only [decodeCursor_encodeCursor _ hwf]
    cases hg : jGet payload idKey with
    | none => rfl
    | some pid => simp only [hnone pid hg]
  · intro S payload hwf hnone
    simp only [Gql.afterIndex, decodeCursor_encodeCursor _ hwf]
    cases hg : jGet payload idKey with
    | none => rfl
    | some pid => simp only [hnone pid hg]

/-- C3 amended at a concrete input: a two-record database sorted ascending
by salary, with a token naming sort_value 50000 and the absent id 999: no
error, and the page is exactly the strict successor window (the second
record, salary 51000). -/
theorem claim_C3_amended_witness :
    (Rest.cursorSorted [Rest.mkUser (fun _ => []) 0 0, Rest.mkUser (fun _ => []) 0 1]
        none (some (encodeCursor
          [("sort_value".data, JPrim.num 50000), (idKey, JPrim.num 999)]))
        Rest.RField.salary "asc".data).toOption.map Rest.CSResp.data =
      some [Rest.mkUser (fun _ => []) 0 1] := by
  rw [claim_C3_amended.1 [Rest.mkUser (fun _ => []) 0 0, Rest.mkUser (fun _ => []) 0 1]
    none [("sort_value".data, JPrim.num 50000), (idKey, JPrim.num 999)]
    Rest.RField.salary "asc".data (by decide)]
  rfl

/-! ## C5: page-size clamping -/

/-- C5 counterexample: the GraphQL resolver does not clamp `first = 0` to
the lower bound 1: `0` is falsy, so `first || last || 20` falls through to
the default 20, and on a two-record database the page has 2 edges where the
claimed clamp-to-1 would give exactly 1. -/
theorem claim_C5_counterexample :
    ((Gql.usersResolver [Gql.mkUser 0 0, Gql.mkUser 0 1] (some 0) none none none
        none none).toOption.map (fun c => c.edges.length)) = some 2 ∧
      (2 : Nat) ≠ 1 := by
  exact ⟨rfl, by decide⟩

/-- C5: CORRECTED. The REST and gRPC servers do clamp: the shared
`min(100, max(1, n))` limit is always in `[1, 100]`, oversize is cut to 100
and non-positive raised to 1 (REST additionally sends `0` and unparsable
input to the default 20 first), and a `page_size = 1100` request over at
least 100 remaining records yields exactly 100 items.  But the GraphQL
resolver does not clamp below: `first: 0` is treated as unset and falls
through to the default 20, and a negative `first` is rejected with a thrown
error, only the upper bound 100 being clamped. -/
theorem claim_C5_amended :
    (∀ ps : Int, 1 ≤ Grpc.grpcLimit ps ∧ Grpc.grpcLimit ps ≤ 100 ∧
       (100 < ps → Grpc.grpcLimit ps = 100) ∧ (ps ≤ 0 → Grpc.grpcLimit ps = 1)) ∧
    (∀ n : Int, n ≠ 0 →
       (100 < n → Rest.restLimit (some n) = 100) ∧
       (n < 0 → Rest.restLimit (some n) = 1)) ∧
    (∀ (db : List Grpc.GUser) (f : Option Grpc.GFilter) (s : Option Grpc.GSort),
       100 ≤ (Grpc.applySorting (Grpc.applyFilters db f) s).length →
       (Grpc.listUsersCursor db 1100 [] f s).users.length = 100) ∧
    (∀ (db : List Gql.GqlUser) (filter : Option Gql.UserFilter)
       (sort : Option Gql.GqlSort),
       (Gql.usersResolver db (some 0) none none none filter sort).toOption.map
           (fun c => c.edges.length) =
         some (min 20 (Gql.applySorting (Gql.applyFilters db filter) sort).length)) ∧
    (∀ (db : List Gql.GqlUser) (afterTok beforeTok : Option JSStr)
       (filter : Option Gql.UserFilter) (sort : Option Gql.GqlSort) (n : Int),
       n < 0 →
       Gql.usersResolver db (some n) afterTok none beforeTok filter sort =
         Except.error Gql.GqlErr.negativeFirst) := by
  refine ⟨?_, ?_, ?_, ?_, ?_⟩
  · intro ps
    unfold Grpc.grpcLimit
    refine ⟨by omega, by omega, fun h => by omega, fun h => by omega⟩
  · intro n hn
    simp only [Rest.restLimit, jsOrInt, if_neg hn]
    exact ⟨fun h => by omega, fun h => by omega⟩
  · intro db f s hlen
    have h100 : Grpc.grpcLimit 1100 = 100 := by decide
    simp only [Grpc.listUsersCursor, h100]
    rw [cursorPageCore_users]
    have hs : Grpc.cursorStart (Grpc.applySorting (Grpc.applyFilters db f) s) [] =
        0 := rfl
    rw [hs]
    simp only [List.length_take, List.length_drop]
    omega
  · intro db filter sort
    simp only [Gql.usersResolver]
    rw [if_neg (by simp), if_neg (by decide), if_neg (by decide), if_pos (by simp)]
    simp only [Except.toOption, Option.map_some', Option.some.injEq, jsOrInt,
      List.take_length, List.drop_zero, List.length_map, List.length_take]
    rfl
  · intro db afterTok beforeTok filter sort n hn
    simp only [Gql.usersResolver]
    rw [if_neg (by simp), if_pos (by simpa using hn)]

/-- C5 amended at concrete inputs: the shared clamp sends 1100 to 100 for
both gRPC and REST; a 100-record database answers page_size 1100 with 100
records; and `first: -1` is a GraphQL error. -/
theorem claim_C5_amended_witness :
    Grpc.grpcLimit 1100 = 100 ∧
    (Grpc.listUsersCursor ((List.range 100).map (Grpc.mkUser 0)) 1100 [] none
        none).users.length = 100 ∧
    Rest.restLimit (some 1100) = 100 ∧
    Gql.usersResolver [Gql.mkUser 0 0] (some (-1)) none none none none none =
      Except.error Gql.GqlErr.negativeFirst := by
  refine ⟨(claim_C5_amended.1 1100).2.2.1 (by decide),
    claim_C5_amended.2.2.1 ((List.range 100).map (Grpc.mkUser 0)) none none
      (by decide),
    ((claim_C5_amended.2.1 1100 (by decide)).1 (by decide)),
    claim_C5_amended.2.2.2.2 [Gql.mkUser 0 0] none none none none (-1) (by decide)⟩
